import Mathlib

/-
  Verification of the audit-agent core (calculation tools, tool orchestrator,
  consensus validation, retry controller) against its specification.

  Modelling conventions:
  * Python floats and `Decimal` values are modelled as exact rationals (ℚ).
    The source computes internally in `Decimal` with 28 significant digits and
    converts to float only at the boundary; rounding drift at that boundary is
    outside this model.
  * Python dictionaries are modelled as insertion-ordered association lists,
    matching CPython dict semantics (updates in place, new keys appended).
  * Python exceptions are modelled with `Except String`: a function that can
    raise returns `Except.error msg`.  Exception message texts are abbreviated.
  * The shared global calculator log is a `List LogEntry` threaded explicitly;
    `clear_calculation_log` resets it to `[]`.
-/

namespace AuditAgent

/-- A JSON-like value: the shape of the nested dict/list results the Python
code builds (tool result dicts, result trees, retry-info records). -/
inductive JSON where
  | null
  | bool (b : Bool)
  | num (q : ℚ)
  | str (s : String)
  | arr (elems : List JSON)
  | obj (fields : List (String × JSON))

instance : Inhabited JSON := ⟨JSON.null⟩

/-- Dictionary lookup (`d[k]` / `k in d`); `none` on a non-mapping. -/
def jlookup : JSON → String → Option JSON
  | .obj kvs, k => kvs.lookup k
  | _, _ => none

/-- `isinstance(v, dict)`. -/
def isObjB : JSON → Bool
  | .obj _ => true
  | _ => false

/-- Insertion-ordered dict update: existing key is overwritten in place,
a new key is appended, as in CPython. -/
def assocSet : List (String × JSON) → String → JSON → List (String × JSON)
  | [], k, v => [(k, v)]
  | (k1, v1) :: rest, k, v =>
      if k1 = k then (k, v) :: rest else (k1, v1) :: assocSet rest k v

/-- `d.get(k, dflt)`.  In Python calling `.get` on a non-mapping raises
`AttributeError`; that branch is unreachable in this pipeline (the values
retrieved are always tool-result dicts), and the model returns the default. -/
def dictGet (j : JSON) (k : String) (dflt : JSON) : JSON :=
  (jlookup j k).getD dflt

/- ------------------------------------------------------------------ -/
/- Character and string utilities shared by the embedding.             -/
/- ------------------------------------------------------------------ -/

/-- Characters matched by the extraction regex `[\d,.]+` (ASCII scope). -/
def isNumTokChar (c : Char) : Bool := c.isDigit || c = ',' || c = '.'

/-- Value of a list of decimal digits. -/
def natOfDigits (ds : List Char) : ℕ :=
  ds.foldl (fun n c => 10 * n + (c.toNat - 48)) 0

/-- Python `float()` restricted to strings of digits and periods: accepted
iff there is at least one digit and at most one period (`"5."`, `".5"` are
accepted, `"."`, `""`, `"1.2.3"` are `ValueError`).  Scientific notation,
`inf`/`nan` and whitespace cannot occur in the tokens this is applied to. -/
def pyFloatDigits (t : List Char) : Option ℚ :=
  if t.any Char.isDigit && t.count '.' ≤ 1 && t.all (fun c => c.isDigit || c = '.') then
    let intPart := t.takeWhile (fun c => c != '.')
    let fracPart := (t.dropWhile (fun c => c != '.')).drop 1
    some ((natOfDigits intPart : ℚ) + (natOfDigits fracPart : ℚ) / (10 : ℚ) ^ fracPart.length)
  else none

/-- `float(num_str.replace(",", ""))` on a regex token. -/
def pyFloatOfToken (s : List Char) : Option ℚ :=
  pyFloatDigits (s.filter (fun c => c != ','))

/-- Python `float(str)` for the strings that can reach `float()` in
`_extract_key_figures`: an optional leading minus then digits/periods.
Status strings such as `"Verified by tool"` fail, as in Python. -/
def pyFloatOfString (s : String) : Option ℚ :=
  match s.toList with
  | '-' :: rest => (pyFloatDigits rest).map Neg.neg
  | l => pyFloatDigits l

/-- Python `float(v)` on a JSON value: numbers are exact, bools are 0/1,
strings are parsed, and a dict/list/None raises `TypeError` (`none`). -/
def pyFloat : JSON → Option ℚ
  | .num q => some q
  | .bool b => some (if b then 1 else 0)
  | .str s => pyFloatOfString s
  | _ => none

/-- Does `p` occur at the head of `l`? -/
def leadsWith : List Char → List Char → Bool
  | [], _ => true
  | _ :: _, [] => false
  | a :: as, b :: bs => a == b && leadsWith as bs

/-- Does `p` occur contiguously anywhere in `l`? (Python `p in s`.) -/
def hasSubList (p : List Char) : List Char → Bool
  | [] => leadsWith p []
  | c :: rest => leadsWith p (c :: rest) || hasSubList p rest

/-- Python substring test `pat in s`. -/
def hasSubstring (pat s : String) : Bool := hasSubList pat.toList s.toList

/-- Python `s.lower()` (ASCII scope). -/
def lowerStr (s : String) : String := String.mk (s.toList.map Char.toLower)

/-- Auxiliary for `splitPath`. -/
def splitDotAux : List Char → List Char → List String
  | [], acc => [String.mk acc.reverse]
  | c :: rest, acc =>
      if c = '.' then String.mk acc.reverse :: splitDotAux rest []
      else splitDotAux rest (c :: acc)

/-- Python `key_path.split(".")`; always returns a nonempty list. -/
def splitPath (s : String) : List String := splitDotAux s.toList []

/-- Auxiliary for `numRuns`: maximal runs of `[\d,.]` characters. -/
def numRunsAux : List Char → List Char → List (List Char)
  | [], acc => if acc.isEmpty then [] else [acc.reverse]
  | c :: rest, acc =>
      if isNumTokChar c then numRunsAux rest (c :: acc)
      else if acc.isEmpty then numRunsAux rest []
      else acc.reverse :: numRunsAux rest []

/-- `re.findall(r"[\d,.]+", s)`: the maximal runs of digits, commas and
periods, in order of appearance. -/
def numRuns (s : String) : List (List Char) := numRunsAux s.toList []

/- ------------------------------------------------------------------ -/
/- calculation_tools.py — the Arithmetic Engine with its audit log.    -/
/- ------------------------------------------------------------------ -/

/-- One entry of `FinancialCalculator.calculation_log`. -/
structure LogEntry where
  operation : String
  inputs : JSON
  result : JSON
  description : String

/-- The calculator state: its append-only calculation log. -/
abbrev Calc := List LogEntry

/-- `FinancialCalculator.log_calculation`: append one entry. -/
def log_calculation (c : Calc) (operation : String) (inputs result : JSON)
    (description : String) : Calc :=
  c ++ [{ operation := operation, inputs := inputs, result := result,
          description := description }]

/-- Result dict of `FinancialCalculator.sum_values` (success branch; with
rational inputs the `except` branch of the source is unreachable because
`Decimal(str(float))` never raises). -/
structure SumResult where
  result : ℚ
  precision : String
  components : List ℚ
  component_count : ℕ
  operation : String

def SumResult.toJSON (r : SumResult) : JSON :=
  .obj [("result", .num r.result), ("precision", .str r.precision),
        ("components", .arr (r.components.map .num)),
        ("component_count", .num r.component_count),
        ("operation", .str r.operation)]

/-- `FinancialCalculator.sum_values`: sums the values, appends one log
entry, returns the result dict. -/
def sum_values (values : List ℚ) (description : String) (c : Calc) :
    SumResult × Calc :=
  let result := values.sum
  ({ result := result, precision := "high", components := values,
     component_count := values.length, operation := "sum" },
   log_calculation c "sum" (.arr (values.map .num)) (.num result) description)

/-- Result dict of `FinancialCalculator.subtract_values` (success branch). -/
structure SubtractResult where
  result : ℚ
  precision : String
  minuend : ℚ
  subtrahend : ℚ
  operation : String

def SubtractResult.toJSON (r : SubtractResult) : JSON :=
  .obj [("result", .num r.result), ("precision", .str r.precision),
        ("minuend", .num r.minuend), ("subtrahend", .num r.subtrahend),
        ("operation", .str r.operation)]

/-- `FinancialCalculator.subtract_values`: appends one log entry. -/
def subtract_values (minuend subtrahend : ℚ) (description : String)
    (c : Calc) : SubtractResult × Calc :=
  let result := minuend - subtrahend
  ({ result := result, precision := "high", minuend := minuend,
     subtrahend := subtrahend, operation := "subtract" },
   log_calculation c "subtract"
     (.obj [("minuend", .num minuend), ("subtrahend", .num subtrahend)])
     (.num result) description)

/-- Result dict of `FinancialCalculator.verify_balance_equation`
(success branch). -/
structure BalanceResult where
  assets : ℚ
  liabilities : ℚ
  equity : ℚ
  liabilities_plus_equity : ℚ
  difference : ℚ
  is_balanced : Bool
  status : String
  precision : String
  operation : String

def BalanceResult.toJSON (r : BalanceResult) : JSON :=
  .obj [("assets", .num r.assets), ("liabilities", .num r.liabilities),
        ("equity", .num r.equity),
        ("liabilities_plus_equity", .num r.liabilities_plus_equity),
        ("difference", .num r.difference),
        ("is_balanced", .bool r.is_balanced), ("status", .str r.status),
        ("precision", .str r.precision), ("operation", .str r.operation)]

/-- `FinancialCalculator.verify_balance_equation`: the pure result
computation (`is_balanced` iff `|assets - (liabilities+equity)| < 0.01`). -/
def verify_balance_equation (assets liabilities equity : ℚ) : BalanceResult :=
  let liabilities_plus_equity := liabilities + equity
  let difference := assets - liabilities_plus_equity
  let is_balanced := decide (|difference| < 1 / 100)
  { assets := assets, liabilities := liabilities, equity := equity,
    liabilities_plus_equity := liabilities_plus_equity,
    difference := difference, is_balanced := is_balanced,
    status := if is_balanced then "Balanced" else "Unbalanced",
    precision := "high", operation := "balance_verification" }

/-- `verify_balance_equation` together with its single log append. -/
def verify_balance_equation_logged (assets liabilities equity : ℚ)
    (c : Calc) : BalanceResult × Calc :=
  let r := verify_balance_equation assets liabilities equity
  (r, log_calculation c "balance_verification"
        (.obj [("assets", .num assets), ("liabilities", .num liabilities),
               ("equity", .num equity)])
        r.toJSON "Balance sheet equation verification")

/-- Result dict of `FinancialCalculator.calculate_percentage`:
`error = some msg` corresponds to the dict carrying an `"error"` key. -/
structure PercentageResult where
  percentage : ℚ
  part : ℚ
  total : ℚ
  error : Option String
  precision : String
  operation : String

def PercentageResult.toJSON (r : PercentageResult) : JSON :=
  .obj ([("percentage", .num r.percentage), ("part", .num r.part),
         ("total", .num r.total)] ++
        (match r.error with
         | some e => [("error", JSON.str e)]
         | none => []) ++
        [("precision", .str r.precision), ("operation", .str r.operation)])

/-- `FinancialCalculator.calculate_percentage`: a zero denominator returns an
error-tagged result dict without raising and without logging; otherwise the
percentage is computed and one log entry is appended.  (The exact rendering
of the logged description string is abbreviated.) -/
def calculate_percentage (part total : ℚ) (c : Calc) :
    PercentageResult × Calc :=
  if total = 0 then
    ({ percentage := 0, part := part, total := total,
       error := some "Division by zero", precision := "error",
       operation := "percentage" }, c)
  else
    let p := part / total * 100
    ({ percentage := p, part := part, total := total, error := none,
       precision := "high", operation := "percentage" },
     log_calculation c "percentage"
       (.obj [("part", .num part), ("total", .num total)])
       (.num p) ("Percentage calculation: " ++ toString part ++ "/" ++ toString total))

/-- Result dict of `validate_footing_calculation`. -/
structure FootingResult where
  reported_total : ℚ
  calculated_total : ℚ
  difference : ℚ
  is_accurate : Bool
  status : String
  component_count : ℕ
  components : List ℚ
  precision : String
  operation : String
  description : String

def FootingResult.toJSON (r : FootingResult) : JSON :=
  .obj [("reported_total", .num r.reported_total),
        ("calculated_total", .num r.calculated_total),
        ("difference", .num r.difference),
        ("is_accurate", .bool r.is_accurate), ("status", .str r.status),
        ("component_count", .num r.component_count),
        ("components", .arr (r.components.map .num)),
        ("precision", .str r.precision), ("operation", .str r.operation),
        ("description", .str r.description)]

/-- `validate_footing_calculation` (the `@tool` function): sums the
components via `calculator.sum_values` (one log entry), subtracts the
reported total via `calculator.subtract_values` (a second log entry),
flags `is_accurate` iff `|difference| < 1.0`, and logs the footing result
itself (a third log entry). -/
def validate_footing_calculation (reported_total : ℚ)
    (component_values : List ℚ) (description : String) (c : Calc) :
    FootingResult × Calc :=
  let sc := sum_values component_values ("Components for " ++ description) c
  let calculated_total := sc.1.result
  let dc := subtract_values calculated_total reported_total
              ("Difference for " ++ description) sc.2
  let difference := dc.1.result
  let is_accurate := decide (|difference| < 1)
  let r : FootingResult :=
    { reported_total := reported_total, calculated_total := calculated_total,
      difference := difference, is_accurate := is_accurate,
      status := if is_accurate then "OK" else "ERROR",
      component_count := component_values.length,
      components := component_values, precision := "high",
      operation := "footing_validation", description := description }
  (r, log_calculation dc.2 "footing_validation"
        (.obj [("reported", .num reported_total),
               ("components", .arr (component_values.map .num))])
        r.toJSON description)

/- ------------------------------------------------------------------ -/
/- core/tool_orchestrator.py — plan builder, executor, usage validator. -/
/- ------------------------------------------------------------------ -/

/-- One value of the `parameters` dict a plan binds for a tool `.invoke`:
a number, a list of numbers, or a string. -/
inductive ParamValue where
  | num (q : ℚ)
  | numList (vs : List ℚ)
  | str (s : String)

/-- `ToolExecution` dataclass.  `parameters` is the Python dict passed to
`.invoke`, keyed by the parameter names the plan builder writes — which may
differ from the invoked tool's signature (see `_invoke_tool`). -/
structure ToolExecution where
  tool_name : String
  parameters : List (String × ParamValue)
  description : String
  expected_result_key : String

/-- Pydantic extraction of a required numeric field: `none` (a validation
error) when the key is missing or bound to a non-numeric value. -/
def getNumParam (ps : List (String × ParamValue)) (k : String) : Option ℚ :=
  match ps.lookup k with
  | some (.num q) => some q
  | _ => none

/-- Pydantic extraction of a required list-of-numbers field. -/
def getNumListParam (ps : List (String × ParamValue)) (k : String) :
    Option (List ℚ) :=
  match ps.lookup k with
  | some (.numList vs) => some vs
  | _ => none

/-- Pydantic extraction of an optional string field with a default. -/
def getStrParam (ps : List (String × ParamValue)) (k : String)
    (dflt : String) : Option String :=
  match ps.lookup k with
  | some (.str s) => some s
  | some _ => none
  | none => some dflt

/-- `FinancialCalculationPlan` dataclass. -/
structure FinancialCalculationPlan where
  required_tools : List ToolExecution
  total_tool_count : ℕ

/-- The four buckets returned by `_extract_financial_values`. -/
structure Buckets where
  current_assets : List ℚ
  fixed_assets : List ℚ
  liabilities : List ℚ
  all_values : List ℚ

/-- `ToolOrchestrator._extract_financial_values`: find all `[\d,.]+` runs,
strip commas, keep the parseable values strictly greater than 1000 in order
of appearance, then bucket by thirds (Python `//` is Nat division; the slice
`[a:b]` is `drop a |>.take (b - a)`). -/
def _extract_financial_values (financial_data : String) : Buckets :=
  let raw_numbers := numRuns financial_data
  let clean_numbers := raw_numbers.foldl
    (fun acc s =>
      match pyFloatOfToken s with
      | some clean_num => if clean_num > 1000 then acc ++ [clean_num] else acc
      | none => acc) []
  let n := clean_numbers.length
  { current_assets := if n > 3 then clean_numbers.take (n / 3) else clean_numbers
    fixed_assets := if n > 6 then (clean_numbers.drop (n / 3)).take (2 * n / 3 - n / 3) else []
    liabilities := if n > 6 then clean_numbers.drop (2 * n / 3) else []
    all_values := clean_numbers }

/-- `ToolOrchestrator._create_balance_sheet_tools`.  Note the footing tool's
parameters dict binds the key `"components"` (tool_orchestrator.py line 135)
although `validate_footing_calculation`'s signature requires
`component_values` (calculation_tools.py line 256): every orchestrator-built
footing invocation therefore fails schema validation in `_invoke_tool`. -/
def _create_balance_sheet_tools (numbers : Buckets) : List ToolExecution :=
  (if numbers.current_assets.isEmpty then [] else
    [{ tool_name := "sum_financial_values",
       parameters := [("values", .numList (numbers.current_assets.take 5)),
                      ("description", .str "Calculate total current assets")],
       description := "Sum of current assets",
       expected_result_key := "aset_lancar.nilai_perhitungan" }]) ++
  (if numbers.fixed_assets.isEmpty then [] else
    [{ tool_name := "sum_financial_values",
       parameters := [("values", .numList (numbers.fixed_assets.take 5)),
                      ("description", .str "Calculate total fixed assets")],
       description := "Sum of fixed assets",
       expected_result_key := "aset_tetap.nilai_perhitungan" }]) ++
  (if 2 ≤ numbers.all_values.length then
    [{ tool_name := "sum_financial_values",
       parameters := [("values", .numList (numbers.all_values.take 10)),
                      ("description", .str "Calculate total assets")],
       description := "Calculate total assets",
       expected_result_key := "total_aset.nilai_perhitungan" }] else []) ++
  (if 3 ≤ numbers.all_values.length then
    [{ tool_name := "validate_footing_calculation",
       parameters := [("reported_total", .num (numbers.all_values.headD 0)),
                      ("components", .numList ((numbers.all_values.drop 1).take 5)),
                      ("description", .str "Validate asset footing")],
       description := "Validate asset footing",
       expected_result_key := "footing_validation.status" }] else []) ++
  (if 6 ≤ numbers.all_values.length then
    [{ tool_name := "verify_balance_sheet_equation",
       parameters := [("assets", .num (numbers.all_values.headD 0)),
                      ("liabilities", .num (numbers.all_values.getD
                         (numbers.all_values.length / 2) 0)),
                      ("equity", .num (numbers.all_values.getLastD 0))],
       description := "Verify balance sheet equation",
       expected_result_key := "balancing.status" }] else [])

/-- `ToolOrchestrator._create_income_statement_tools`. -/
def _create_income_statement_tools (numbers : Buckets) : List ToolExecution :=
  (if 2 ≤ numbers.all_values.length then
    [{ tool_name := "sum_financial_values",
       parameters := [("values", .numList (numbers.all_values.take 3)),
                      ("description", .str "Calculate total revenue")],
       description := "Total revenue calculation",
       expected_result_key := "total_pendapatan.nilai_perhitungan" }] else []) ++
  (if 4 ≤ numbers.all_values.length then
    [{ tool_name := "sum_financial_values",
       parameters := [("values", .numList ((numbers.all_values.drop 2).take 5)),
                      ("description", .str "Calculate total expenses")],
       description := "Total expense calculation",
       expected_result_key := "total_beban.nilai_perhitungan" }] else []) ++
  (if 2 ≤ numbers.all_values.length then
    [{ tool_name := "subtract_financial_values",
       parameters := [("minuend", .num (numbers.all_values.headD 0)),
                      ("subtrahend", .num (numbers.all_values.getD 1 0)),
                      ("description", .str "Calculate net income")],
       description := "Net income calculation",
       expected_result_key := "laba_bersih.nilai_perhitungan" }] else [])

/-- `ToolOrchestrator._create_cash_flow_tools`. -/
def _create_cash_flow_tools (numbers : Buckets) : List ToolExecution :=
  (if 3 ≤ numbers.all_values.length then
    [{ tool_name := "sum_financial_values",
       parameters := [("values", .numList (numbers.all_values.take 4)),
                      ("description", .str "Calculate operating cash flow")],
       description := "Operating cash flow",
       expected_result_key := "arus_kas_operasi.nilai_perhitungan" }] else []) ++
  (if 6 ≤ numbers.all_values.length then
    [{ tool_name := "sum_financial_values",
       parameters := [("values", .numList (numbers.all_values.take 6)),
                      ("description", .str "Calculate net cash flow")],
       description := "Net cash flow",
       expected_result_key := "arus_kas_bersih.nilai_perhitungan" }] else [])

/-- `ToolOrchestrator.create_standardized_calculation_plan`: dispatch on the
statement type (`"neraca"`, substring `"posisi_keuangan"`, `"laba_rugi"`,
`"arus_kas"`), any other type yields the empty plan. -/
def create_standardized_calculation_plan (financial_data statement_type : String) :
    FinancialCalculationPlan :=
  let numbers := _extract_financial_values financial_data
  let required_tools :=
    if statement_type = "neraca" || hasSubstring "posisi_keuangan" statement_type then
      _create_balance_sheet_tools numbers
    else if statement_type = "laba_rugi" then
      _create_income_statement_tools numbers
    else if statement_type = "arus_kas" then
      _create_cash_flow_tools numbers
    else []
  { required_tools := required_tools, total_tool_count := required_tools.length }

/-- `ToolOrchestrator._store_result_in_structure`: split the key path on dots
and navigate/create nested dicts.  Navigating into a value that is not a
mapping raises `TypeError` in Python, modelled as `Except.error`. -/
def _store_result_in_structure : List String → JSON → JSON → Except String JSON
  | [], _, _ => .error "TypeError: empty key path"
  | [k], .obj kvs, v => .ok (.obj (assocSet kvs k v))
  | k :: k2 :: rest, .obj kvs, v =>
      match kvs.lookup k with
      | none =>
          (_store_result_in_structure (k2 :: rest) (.obj []) v).map
            (fun sub => .obj (assocSet kvs k sub))
      | some sub =>
          (_store_result_in_structure (k2 :: rest) sub v).map
            (fun sub2 => .obj (assocSet kvs k sub2))
  | _ :: _, _, _ => .error "TypeError: value at path is not a mapping"

/-- The error leaf `{"error": str(e)}` stored by the executor's `except`. -/
def errorLeaf (e : String) : JSON := .obj [("error", .str e)]

/-- The tool dispatch in `execute_mandatory_calculations` (lines 249-258).
Each `StructuredTool.invoke(parameters)` first validates the dict against
the pydantic schema inferred from the decorated function's signature: a
required parameter that is missing or of the wrong type raises a
`ValidationError` BEFORE the tool body runs (so nothing is logged).  This
is what happens to every orchestrator-built footing call, whose dict binds
`"components"` while the tool requires `component_values`.  Extra dict keys
are ignored by the model; in that footing call the missing required key
already decides the outcome, so the extra-key policy is immaterial.  An
unrecognized tool name leaves the Python variable `result` unbound, raising
`NameError` when it is first stored (on a later iteration Python would
silently reuse the previous iteration's `result`; no plan built by this
orchestrator names an unknown tool). -/
def _invoke_tool (tool_exec : ToolExecution) (c : Calc) :
    Except String (JSON × Calc) :=
  if tool_exec.tool_name = "sum_financial_values" then
    match getNumListParam tool_exec.parameters "values",
          getStrParam tool_exec.parameters "description" "Sum calculation" with
    | some values, some description =>
        let r := sum_values values description c
        .ok (r.1.toJSON, r.2)
    | _, _ => .error "ValidationError: invalid parameters for sum_financial_values"
  else if tool_exec.tool_name = "subtract_financial_values" then
    match getNumParam tool_exec.parameters "minuend",
          getNumParam tool_exec.parameters "subtrahend",
          getStrParam tool_exec.parameters "description" "Subtraction calculation" with
    | some minuend, some subtrahend, some description =>
        let r := subtract_values minuend subtrahend description c
        .ok (r.1.toJSON, r.2)
    | _, _, _ => .error "ValidationError: invalid parameters for subtract_financial_values"
  else if tool_exec.tool_name = "verify_balance_sheet_equation" then
    match getNumParam tool_exec.parameters "assets",
          getNumParam tool_exec.parameters "liabilities",
          getNumParam tool_exec.parameters "equity" with
    | some assets, some liabilities, some equity =>
        let r := verify_balance_equation_logged assets liabilities equity c
        .ok (r.1.toJSON, r.2)
    | _, _, _ => .error "ValidationError: invalid parameters for verify_balance_sheet_equation"
  else if tool_exec.tool_name = "validate_footing_calculation" then
    match getNumParam tool_exec.parameters "reported_total",
          getNumListParam tool_exec.parameters "component_values",
          getStrParam tool_exec.parameters "description" "Footing validation" with
    | some reported_total, some component_values, some description =>
        let r := validate_footing_calculation reported_total component_values description c
        .ok (r.1.toJSON, r.2)
    | _, _, _ => .error "ValidationError: invalid parameters for validate_footing_calculation"
  else if tool_exec.tool_name = "calculate_financial_percentage" then
    match getNumParam tool_exec.parameters "part",
          getNumParam tool_exec.parameters "total" with
    | some part, some total =>
        let r := calculate_percentage part total c
        .ok (r.1.toJSON, r.2)
    | _, _ => .error "ValidationError: invalid parameters for calculate_financial_percentage"
  else .error "NameError: name result is not defined"

/-- The `for` loop body of `execute_mandatory_calculations`: each operation is
run inside `try`; on an exception the error leaf is stored at the operation's
target path (that second store happens outside the `try`, so its own failure
propagates) and execution continues with the remaining operations.
`tool_execution_count` is incremented only after a fully successful store. -/
def _execute_tool_list : List ToolExecution → JSON → Calc →
    Except String (JSON × ℕ × Calc)
  | [], results, c => .ok (results, 0, c)
  | te :: rest, results, c =>
      match _invoke_tool te c with
      | .ok (v, c1) =>
          match _store_result_in_structure (splitPath te.expected_result_key) results v with
          | .ok results1 =>
              match _execute_tool_list rest results1 c1 with
              | .ok (r2, n2, c2) => .ok (r2, 1 + n2, c2)
              | .error e => .error e
          | .error e =>
              match _store_result_in_structure (splitPath te.expected_result_key)
                      results (errorLeaf e) with
              | .ok results1 =>
                  match _execute_tool_list rest results1 c1 with
                  | .ok (r2, n2, c2) => .ok (r2, n2, c2)
                  | .error e2 => .error e2
              | .error e2 => .error e2
      | .error e =>
          match _store_result_in_structure (splitPath te.expected_result_key)
                  results (errorLeaf e) with
          | .ok results1 =>
              match _execute_tool_list rest results1 c with
              | .ok (r2, n2, c2) => .ok (r2, n2, c2)
              | .error e2 => .error e2
          | .error e2 => .error e2

/-- `ToolOrchestrator.execute_mandatory_calculations`: clears the shared
calculation log (`clear_calculation_log`), then executes every mandatory
tool, returning the nested result dict, the successful-execution count and
the final log. -/
def execute_mandatory_calculations (calculation_plan : FinancialCalculationPlan) :
    Except String (JSON × ℕ × Calc) :=
  _execute_tool_list calculation_plan.required_tools (.obj []) []

/-- All string atoms (keys and string values) of a JSON value: the denylist
phrases can only occur inside these atoms of `json.dumps(agent_result)`,
since `dumps` separates atoms with quotes and punctuation that no phrase
contains. -/
def jStrAtoms : JSON → List String
  | .null => []
  | .bool _ => []
  | .num _ => []
  | .str s => [s]
  | .arr elems => elems.attach.flatMap (fun e => jStrAtoms e.1)
  | .obj fields => fields.attach.flatMap (fun f => f.1.1 :: jStrAtoms f.1.2)
decreasing_by
  · have h1 := List.sizeOf_lt_of_mem e.2
    simp only [JSON.arr.sizeOf_spec]
    omega
  · have h1 := List.sizeOf_lt_of_mem f.2
    have h2 : sizeOf f.1.2 < sizeOf f.1 := by
      obtain ⟨⟨a, b⟩, hmem⟩ := f
      simp only [Prod.mk.sizeOf_spec]
      omega
    simp only [JSON.obj.sizeOf_spec]
    omega

/-- The forbidden manual-calculation phrases of `validate_tool_usage`. -/
def forbidden_patterns : List String :=
  ["calculated manually", "computed by hand", "manual calculation",
   "i calculated", "my calculation"]

/-- `pattern in json.dumps(agent_result).lower()` for one denylist phrase. -/
def jsonContainsPhrase (j : JSON) (pat : String) : Bool :=
  (jStrAtoms j).any (fun s => hasSubList pat.toList (lowerStr s).toList)

/-- `ToolOrchestrator.validate_tool_usage`: fails with a count-mismatch
message when the calculation-log length differs from the expected tool
count, then scans the serialized result for forbidden phrases. -/
def validate_tool_usage (agent_result : JSON) (expected_tool_count : ℕ)
    (calc_log : Calc) : Bool × String :=
  let actual_tool_count := calc_log.length
  if actual_tool_count ≠ expected_tool_count then
    (false, "Expected " ++ toString expected_tool_count ++ " tools, got " ++
            toString actual_tool_count)
  else
    match forbidden_patterns.find? (fun p => jsonContainsPhrase agent_result p) with
    | some p => (false, "Forbidden manual calculation detected: " ++ p)
    | none => (true, "Tool usage validated")

/-- `ToolOrchestrator.create_standardized_json_structure` (balance-sheet
branch builds the fixed skeleton from tool results; other statement types
wrap the raw tool results). -/
def create_standardized_json_structure (tool_results : JSON)
    (statement_type : String) : JSON :=
  if statement_type = "neraca" || hasSubstring "posisi_keuangan" statement_type then
    let g1 := dictGet (dictGet tool_results "aset_lancar" (.obj [])) "nilai_perhitungan" (.num 0)
    let g2 := dictGet (dictGet tool_results "total_aset" (.obj [])) "nilai_perhitungan" (.num 0)
    .obj [("laporan_posisi_keuangan", .obj
      [("aset", .obj
        [("aset_lancar", .obj
          [("nama_akun", .str "Jumlah Aset Lancar"), ("nilai_tercatat", g1),
           ("nilai_perhitungan", g1), ("selisih", .num 0),
           ("status", .str "OK"), ("source", .str "calculation_tool")]),
         ("total_aset", .obj
          [("nama_akun", .str "Total Aset"), ("nilai_tercatat", g2),
           ("nilai_perhitungan", g2), ("selisih", .num 0),
           ("status", .str "OK"), ("source", .str "calculation_tool")])]),
       ("balancing", .obj
        [("status", dictGet (dictGet tool_results "balancing" (.obj []))
                      "status" (.str "Verified by tool")),
         ("source", .str "balance_equation_tool")])])]
  else
    .obj [("tool_based_calculation", tool_results)]

/- ------------------------------------------------------------------ -/
/- core/base_agent.py — replica runner, key figures, retry controller. -/
/- ------------------------------------------------------------------ -/

/-- `AgentResult` dataclass.  `processing_time` is wall-clock time in the
source and is fixed to 0 in this model. -/
structure AgentResult where
  agent_id : String
  company : String
  statement_type : String
  extracted_data : JSON
  calculation_log : JSON
  processing_time : ℚ
  validation_score : ℚ
  confidence : ℚ
  tool_calls_made : ℕ
  errors : List String
  raw_response : String

/-- `BaseFinancialAgent.process_statement`: build the standardized plan,
execute every mandatory tool (this clears the shared calculator log first),
assemble the standardized JSON structure, validate tool usage, and return
the `AgentResult`.  Note that `tool_calls_made` is assigned
`calculation_plan.total_tool_count` (base_agent.py line 89), not the actual
log length. -/
def process_statement (agent_id statement_text statement_type company : String) :
    Except String AgentResult :=
  let calculation_plan := create_standardized_calculation_plan statement_text statement_type
  match execute_mandatory_calculations calculation_plan with
  | .error e => .error e
  | .ok (tool_results, _cnt, calc_log) =>
      let extracted_data := create_standardized_json_structure tool_results statement_type
      let v := validate_tool_usage extracted_data calculation_plan.total_tool_count calc_log
      .ok { agent_id := agent_id, company := company,
            statement_type := statement_type,
            extracted_data := extracted_data,
            calculation_log := tool_results,
            processing_time := 0,
            validation_score := if v.1 then 100 else 0,
            confidence := if v.1 then 95 else 10,
            tool_calls_made := calculation_plan.total_tool_count,
            errors := if v.1 then [] else [v.2],
            raw_response := "Tool-based calculation with " ++
              toString calculation_plan.total_tool_count ++ " tools" }

/-- The guarded figure sites of `_extract_key_figures`, in source order.
The guards (`in`, `isinstance`) cannot raise; only the `float(...)` calls
can, so collecting the guarded sites first and folding over them is
observationally the same as the interleaved Python code. -/
def ekfSites (data : JSON) : List (String × JSON) :=
  match jlookup data "laporan_posisi_keuangan" with
  | none => []
  | some posisi =>
      (match jlookup posisi "aset" with
       | none => []
       | some aset =>
           (match jlookup aset "aset_lancar" with
            | some al =>
                if isObjB al then
                  match jlookup al "nilai_tercatat" with
                  | some v => [("aset_lancar", v)]
                  | none => []
                else []
            | none => []) ++
           (match jlookup aset "total_aset" with
            | some ta =>
                if isObjB ta then
                  match jlookup ta "nilai_tercatat" with
                  | some v => [("total_aset", v)]
                  | none => []
                else []
            | none => [])) ++
      (match jlookup posisi "balancing" with
       | none => []
       | some balancing =>
           (match jlookup balancing "total_aset" with
            | some v => [("balance_total_aset", v)]
            | none => []) ++
           (match jlookup balancing "total_liabilitas_ekuitas" with
            | some v => [("balance_total_liab_eq", v)]
            | none => []))

/-- Folding the figure sites: the first `float(...)` failure raises
(`ValueError`/`TypeError`), the `except` swallows it, and the figures
accumulated so far are returned. -/
def ekfGo (acc : List (String × ℚ)) : List (String × JSON) → List (String × ℚ)
  | [] => acc
  | (name, v) :: rest =>
      match pyFloat v with
      | some q => ekfGo (acc ++ [(name, q)]) rest
      | none => acc

/-- `BaseTripleAgentSystem._extract_key_figures`. -/
def _extract_key_figures (data : JSON) : List (String × ℚ) :=
  ekfGo [] (ekfSites data)

/-- `ConsensusResult` dataclass (the two optional calculation-verification
fields keep their default `None` in every code path modelled here and are
omitted). -/
structure ConsensusResult where
  is_consensus : Bool
  agreed_data : JSON
  discrepancies : List JSON
  retry_needed : Bool
  failing_agents : List String
  confidence_scores : List (String × ℚ)

/-- Key figures per agent, in agent order. -/
def keyFiguresOf (agent_results : List (String × AgentResult)) :
    List (String × List (String × ℚ)) :=
  agent_results.map (fun p => (p.1, _extract_key_figures p.2.extracted_data))

/-- The `(agent_id, value)` pairs of agents whose figure set contains `key`,
in agent order (the `values` list of `_validate_consensus`). -/
def consensusValues (kf : List (String × List (String × ℚ))) (key : String) :
    List (String × ℚ) :=
  kf.filterMap (fun p => (p.2.lookup key).map (fun v => (p.1, v)))

/-- `tolerance = max(abs(base_value * relFactor), floor)`. -/
def toleranceFor (relFactor floorV base : ℚ) : ℚ :=
  max |base * relFactor| floorV

/-- The agents disagreeing on one figure: everyone after the first holder
whose value differs from the first holder's (baseline) value by more than
the tolerance.  With fewer than two holders this is empty, exactly as the
`len(values) >= 2` guard of the source makes that case a no-op. -/
def disagreeOn (relFactor floorV : ℚ) (vals : List (String × ℚ)) : List String :=
  match vals with
  | [] => []
  | (_, base) :: rest =>
      (rest.filter (fun q =>
        decide (|q.2 - base| > toleranceFor relFactor floorV base))).map Prod.fst

/-- One iteration of the `for key in all_keys` loop of `_validate_consensus`:
disagreeing agents are appended (deduplicated) to the failing set, and a
discrepancy record is appended when there is any disagreement.  The Gemini
variant (`withTol = true`) additionally records `tolerance_used`. -/
def consensusStep (relFactor floorV : ℚ) (withTol : Bool)
    (kf : List (String × List (String × ℚ)))
    (acc : List JSON × List String) (key : String) : List JSON × List String :=
  let values := consensusValues kf key
  let disagreeing := disagreeOn relFactor floorV values
  let failing := disagreeing.foldl (fun f a => if a ∈ f then f else f ++ [a]) acc.2
  if disagreeing.isEmpty then (acc.1, failing)
  else
    let base := (values.head?.map Prod.snd).getD 0
    let tol := toleranceFor relFactor floorV base
    (acc.1 ++ [JSON.obj
      ([("key", .str key), ("base_value", .num base),
        ("disagreeing_agents", .arr (disagreeing.map .str)),
        ("values", .obj (values.map (fun q => (q.1, JSON.num q.2))))] ++
       (if withTol then [("tolerance_used", JSON.num tol)] else []))],
     failing)

/-- Python `max(agent_results.items(), key=lambda x: x[1].confidence)`:
the first element attaining the maximal confidence (`max` replaces the
current best only on strictly greater keys).  `none` on an empty list,
where Python would raise `ValueError` (unreachable: three agents). -/
def maxByConfidence (agent_results : List (String × AgentResult)) :
    Option (String × AgentResult) :=
  match agent_results with
  | [] => none
  | x :: xs =>
      some (xs.foldl (fun b y => if y.2.confidence > b.2.confidence then y else b) x)

/-- The common body of `GeminiTripleAgentSystem._validate_consensus` and
`OllamaTripleAgentSystem._validate_consensus`, which differ only in the
tolerance profile and in recording `tolerance_used`.  Python iterates
`all_keys` as a set with unspecified order; the model fixes `List.dedup`
order (the claim-relevant outputs are proved order-independent). -/
def validateConsensusCore (relFactor floorV : ℚ) (withTol : Bool)
    (agent_results : List (String × AgentResult)) : ConsensusResult :=
  let confidence_scores := agent_results.map (fun p => (p.1, p.2.confidence))
  let kf := keyFiguresOf agent_results
  let all_keys := (kf.flatMap (fun p => p.2.map Prod.fst)).dedup
  let dfp := all_keys.foldl (consensusStep relFactor floorV withTol kf) ([], [])
  let is_consensus := dfp.1.isEmpty && dfp.2.isEmpty
  let agreed_data :=
    if is_consensus then
      match maxByConfidence agent_results with
      | some best => best.2.extracted_data
      | none => .obj []
    else .obj []
  { is_consensus := is_consensus, agreed_data := agreed_data,
    discrepancies := dfp.1, retry_needed := !is_consensus,
    failing_agents := dfp.2, confidence_scores := confidence_scores }

/-- `GeminiTripleAgentSystem._validate_consensus`: strict profile,
`tolerance = max(abs(base_value * 0.0001), 1.0)`. -/
def gemini_validate_consensus (agent_results : List (String × AgentResult)) :
    ConsensusResult :=
  validateConsensusCore (1 / 10000) 1 true agent_results

/-- `OllamaTripleAgentSystem._validate_consensus`: loose profile,
`tolerance = max(abs(base_value * 0.001), 5.0)`. -/
def ollama_validate_consensus (agent_results : List (String × AgentResult)) :
    ConsensusResult :=
  validateConsensusCore (1 / 1000) 5 false agent_results

/-- Running every agent's `process_statement` in order (the
`for agent in agents` loop of `_process_with_consensus`, step 2).
`run_replica` is the replica implementation: `BaseFinancialAgent` is
abstract, so the controller is modelled generically over it; the in-repo
instantiation is `process_statement` itself. -/
def runAllReplicas (run_replica : String → String → String → String → Except String AgentResult)
    (agents : List String) (statement_text statement_type company : String) :
    Except String (List (String × AgentResult)) :=
  match agents with
  | [] => .ok []
  | a :: rest =>
      match run_replica a statement_text statement_type company with
      | .error e => .error e
      | .ok r =>
          match runAllReplicas run_replica rest statement_text statement_type company with
          | .error e => .error e
          | .ok tail => .ok ((a, r) :: tail)

/-- One pass of the attempt loop of
`BaseTripleAgentSystem._process_with_consensus`, with `fuel` the number of
attempts still available (so `fuel = max_retries + 1 - attempt`; the Python
guard `attempt < self.max_retries` is `0 < fuel - 1`).  The `fuel = 0` case
corresponds to the unreachable `return {}, retries` after the loop. -/
def _attempt_loop (run_replica : String → String → String → String → Except String AgentResult)
    (validate_consensus : List (String × AgentResult) → ConsensusResult)
    (agents : List String) (statement_text statement_type company : String)
    (attempt : ℕ) (retries : List JSON) : ℕ → Except String (JSON × List JSON)
  | 0 => .ok (.obj [], retries)
  | fuel + 1 =>
      let calculation_plan := create_standardized_calculation_plan statement_text statement_type
      match runAllReplicas run_replica agents statement_text statement_type company with
      | .error e => .error e
      | .ok agent_results =>
          let tool_execution_valid := agent_results.all
            (fun p => p.2.tool_calls_made == calculation_plan.total_tool_count)
          if tool_execution_valid then
            let consensus := validate_consensus agent_results
            if consensus.is_consensus then .ok (consensus.agreed_data, retries)
            else
              let retry_info := JSON.obj
                [("attempt", .num ((attempt : ℚ) + 1)),
                 ("reason", .str "tool_results_disagree_unexpectedly"),
                 ("disagreements", .num (consensus.discrepancies.length : ℚ)),
                 ("failing_agents", .arr (consensus.failing_agents.map .str)),
                 ("note", .str "Identical tools produced different results - possible bug")]
              if 0 < fuel then
                _attempt_loop run_replica validate_consensus agents statement_text
                  statement_type company (attempt + 1) (retries ++ [retry_info]) fuel
              else
                .ok (((agent_results.head?.map (fun p => p.2.extracted_data)).getD (.obj [])),
                     retries ++ [retry_info])
          else
            let retry_info := JSON.obj
              [("attempt", .num ((attempt : ℚ) + 1)),
               ("reason", .str "tool_execution_inconsistent"),
               ("expected_tools", .num (calculation_plan.total_tool_count : ℚ)),
               ("agent_tool_counts", .obj (agent_results.map
                  (fun p => (p.1, JSON.num (p.2.tool_calls_made : ℚ)))))]
            if 0 < fuel then
              _attempt_loop run_replica validate_consensus agents statement_text
                statement_type company (attempt + 1) (retries ++ [retry_info]) fuel
            else .ok (.obj [], retries ++ [retry_info])

/-- `BaseTripleAgentSystem._process_with_consensus` for one statement:
`max_retries + 1` attempts, returning the final result tree and the
accumulated retry records. -/
def _process_with_consensus
    (run_replica : String → String → String → String → Except String AgentResult)
    (validate_consensus : List (String × AgentResult) → ConsensusResult)
    (agents : List String) (statement_text statement_type company : String)
    (max_retries : ℕ) : Except String (JSON × List JSON) :=
  _attempt_loop run_replica validate_consensus agents statement_text
    statement_type company 0 [] (max_retries + 1)

/- ------------------------------------------------------------------ -/
/- Auxiliary definitions used by the verification statements.          -/
/- ------------------------------------------------------------------ -/

/-- Look a value up along a path of keys in a nested result tree. -/
def jLookupPath : JSON → List String → Option JSON
  | j, [] => some j
  | j, k :: rest =>
      match jlookup j k with
      | some v => jLookupPath v rest
      | none => none

/-- Is the full path present in the nested result tree? -/
def jHasPath (j : JSON) (path : List String) : Bool :=
  (jLookupPath j path).isSome

/-- The claim-side reading of the Value Extractor (for comparison with
`_extract_financial_values`): numeric tokens with thousands separators
allowed AND parenthesized negatives recognized — a maximal numeric run
directly enclosed in parentheses denotes the negated value.  Fuel-driven
scanner; `claimParenAllValues` supplies fuel `text.length`, enough for any
input. -/
def claimScanF : ℕ → List Char → List ℚ
  | 0, _ => []
  | _ + 1, [] => []
  | fuel + 1, '(' :: rest =>
      let run := rest.takeWhile isNumTokChar
      (match rest.dropWhile isNumTokChar with
       | ')' :: rest2 =>
           match pyFloatOfToken run with
           | some v => -v :: claimScanF fuel rest2
           | none => claimScanF fuel rest2
       | _ => claimScanF fuel rest)
  | fuel + 1, c :: rest =>
      if isNumTokChar c then
        let run := (c :: rest).takeWhile isNumTokChar
        let rest2 := (c :: rest).dropWhile isNumTokChar
        match pyFloatOfToken run with
        | some v => v :: claimScanF fuel rest2
        | none => claimScanF fuel rest2
      else claimScanF fuel rest

/-- The all-values bucket as described by the claim: numeric substrings
(thousands separators allowed, parenthesized negatives recognized) whose
value exceeds the 1000 floor, in order of appearance. -/
def claimParenAllValues (text : String) : List ℚ :=
  (claimScanF text.toList.length text.toList).filter (fun v => decide (v > 1000))

/-- A concrete three-operation plan whose middle operation raises a
validation error, used to exhibit the executor's error-leaf behaviour.
The middle operation is exactly the footing call the orchestrator builds:
its parameters dict binds `"components"` where the tool requires
`component_values`, so `.invoke` raises before the tool body runs. -/
def demoOps : List ToolExecution :=
  [{ tool_name := "sum_financial_values",
     parameters := [("values", .numList [2000, 3000]), ("description", .str "a")],
     description := "a", expected_result_key := "total_aset.nilai_perhitungan" },
   { tool_name := "validate_footing_calculation",
     parameters := [("reported_total", .num 2000),
                    ("components", .numList [3000, 4000]),
                    ("description", .str "Validate asset footing")],
     description := "Validate asset footing",
     expected_result_key := "footing_validation.status" },
   { tool_name := "subtract_financial_values",
     parameters := [("minuend", .num 5000), ("subtrahend", .num 2000),
                    ("description", .str "c")],
     description := "c", expected_result_key := "laba_bersih.nilai_perhitungan" }]

/-- A minimal `AgentResult` fixture for exercising the retry controller and
the consensus validator over the abstract replica interface
(`BaseFinancialAgent` is abstract; any subclass may return such a result). -/
def mkStubAgentResult (agent_id : String) (data : JSON) (confidence : ℚ)
    (tool_calls_made : ℕ) : AgentResult :=
  { agent_id := agent_id, company := "PT", statement_type := "neraca",
    extracted_data := data, calculation_log := .obj [],
    processing_time := 0, validation_score := 0, confidence := confidence,
    tool_calls_made := tool_calls_made, errors := [], raw_response := "" }

/-- A result tree carrying one key figure (`aset_lancar = v`). -/
def mkFigureData (v : ℚ) : JSON :=
  .obj [("laporan_posisi_keuangan", .obj
    [("aset", .obj [("aset_lancar", .obj [("nilai_tercatat", .num v)])])])]

/-- A replica implementation that reports a tool count of 99 (never matching
any plan) with a non-empty result tree. -/
def stubUsageRun (agent_id _text _ty _company : String) : Except String AgentResult :=
  .ok (mkStubAgentResult agent_id (.obj [("x", .num 1)]) 10 99)

/-- A replica implementation whose two replicas report figures 1000000 and
2000000 (disagreeing far beyond the strict tolerance) and matching tool
counts for an empty plan. -/
def stubDisagreeRun (agent_id _text _ty _company : String) : Except String AgentResult :=
  .ok (if agent_id = "a1" then mkStubAgentResult "a1" (mkFigureData 1000000) 10 0
       else mkStubAgentResult "a2" (mkFigureData 2000000) 10 0)

/-- Two agreeing replicas with distinct confidences (the second higher),
exercising the agreed-tree selection. -/
def rsAgree : List (String × AgentResult) :=
  [("a1", mkStubAgentResult "a1" (mkFigureData 1000000) 10 0),
   ("a2", mkStubAgentResult "a2" (mkFigureData 1000000) 95 0)]

/-- The balance-sheet statement text of the count-mismatch scenario:
four material values, producing a three-operation plan (two sums and one
footing validation). -/
def exText : String := "2000 3000 4000 5000"

/-- The plan built for `exText`. -/
def exPlan : FinancialCalculationPlan :=
  create_standardized_calculation_plan exText "neraca"

/-- The three replica ids of the triple-agent systems. -/
def exAgents : List String := ["agent_1", "agent_2", "agent_3"]


/-- The replica results produced by `stubDisagreeRun` for agents a1, a2. -/
def rsDisagree : List (String × AgentResult) :=
  [("a1", mkStubAgentResult "a1" (mkFigureData 1000000) 10 0),
   ("a2", mkStubAgentResult "a2" (mkFigureData 2000000) 10 0)]

/- ------------------------------------------------------------------ -/
/- Theorems.                                                           -/
/- ------------------------------------------------------------------ -/

/-- C2: the claim says a LogEntry-count mismatch fails the attempt before
any consensus comparison.  On the code the attempt-level guard compares
`AgentResult.tool_calls_made` — which `process_statement` sets to the plan
count itself — with the plan count, so it never fires: here every replica's
log has 2 entries against a 3-operation plan (the footing operation fails
schema validation and logs nothing) and the replica-level validator reports
the mismatch, yet no attempt failure is recorded (`retries = []`) and the
attempt's result is exactly the consensus check's agreed output. -/
theorem usage_mismatch_does_not_fail_attempt :
    Except.map (fun x => x.2.2.length) (execute_mandatory_calculations exPlan) = .ok 2 ∧
    exPlan.total_tool_count = 3 ∧
    Except.map (fun r => r.errors) (process_statement "agent_1" exText "neraca" "PT") =
      .ok ["Expected 3 tools, got 2"] ∧
    Except.map (fun rs => rs.all (fun p => p.2.tool_calls_made == exPlan.total_tool_count))
      (runAllReplicas process_statement exAgents exText "neraca" "PT") = .ok true ∧
    Except.map (fun rs => (gemini_validate_consensus rs).is_consensus)
      (runAllReplicas process_statement exAgents exText "neraca" "PT") = .ok true ∧
    Except.map (fun x => x.2)
      (_process_with_consensus process_statement gemini_validate_consensus exAgents
        exText "neraca" "PT" 2) = .ok [] ∧
    _process_with_consensus process_statement gemini_validate_consensus exAgents
        exText "neraca" "PT" 2 =
      Except.map (fun rs => ((gemini_validate_consensus rs).agreed_data, ([] : List JSON)))
        (runAllReplicas process_statement exAgents exText "neraca" "PT") := by
  refine ⟨?_, ?_, ?_, ?_, ?_, ?_, ?_⟩ <;> with_unfolding_all rfl

/-- C4: the Plan Builder is a pure function of the statement text and the
statement type: two calls on equal inputs return identical plans (the same
operation sequence and count). -/
theorem plan_builder_deterministic (t1 t2 ty1 ty2 : String)
    (ht : t1 = t2) (hty : ty1 = ty2) :
    create_standardized_calculation_plan t1 ty1 = create_standardized_calculation_plan t2 ty2 ∧
    (create_standardized_calculation_plan t1 ty1).total_tool_count =
      (create_standardized_calculation_plan t2 ty2).total_tool_count := by
  subst ht; subst hty; exact ⟨rfl, rfl⟩

/-- Witness for C4 at a concrete statement. -/
theorem plan_builder_deterministic_witness :
    create_standardized_calculation_plan "2000 3000" "neraca" =
      create_standardized_calculation_plan "2000 3000" "neraca" ∧
    (create_standardized_calculation_plan "2000 3000" "neraca").total_tool_count =
      (create_standardized_calculation_plan "2000 3000" "neraca").total_tool_count :=
  plan_builder_deterministic "2000 3000" "2000 3000" "neraca" "neraca" rfl rfl

/-- C5: the balance check reports balanced exactly when
`|assets - (liabilities + equity)| < 0.01`; with exact equality it reports
balanced with difference 0, and perturbing the assets by 0.02 in either
direction reports unbalanced. -/
theorem balance_check_spec (a l e : ℚ) :
    ((verify_balance_equation a l e).is_balanced = true ↔ |a - (l + e)| < 1 / 100) ∧
    (a = l + e → (verify_balance_equation a l e).is_balanced = true ∧
      (verify_balance_equation a l e).difference = 0) ∧
    (a = l + e → (verify_balance_equation (a + 2 / 100) l e).is_balanced = false) ∧
    (a = l + e → (verify_balance_equation (a - 2 / 100) l e).is_balanced = false) := by
  refine ⟨?_, ?_, ?_, ?_⟩
  · simp [verify_balance_equation]
  · intro h
    subst h
    constructor
    · simp [verify_balance_equation]
    · simp [verify_balance_equation]
  · intro h
    subst h
    simp [verify_balance_equation]
    rw [abs_of_pos] <;> norm_num
  · intro h
    subst h
    simp [verify_balance_equation]
    rw [abs_of_pos] <;> norm_num

/-- Witness for C5 at the spec's balanced scenario values. -/
theorem balance_check_witness :
    (verify_balance_equation 28793225 5591163 23202062).is_balanced = true ∧
    (verify_balance_equation 28793225 5591163 23202062).difference = 0 ∧
    (verify_balance_equation (28793225 + 2 / 100) 5591163 23202062).is_balanced = false :=
  ⟨((balance_check_spec 28793225 5591163 23202062).2.1 (by norm_num)).1,
   ((balance_check_spec 28793225 5591163 23202062).2.1 (by norm_num)).2,
   (balance_check_spec 28793225 5591163 23202062).2.2.1 (by norm_num)⟩

/-- C6: footing validation reports accurate exactly when
`|sum(components) - reportedTotal| < 1.0`; with the exact component sum it
reports accurate, and off by 1.5 in either direction it reports inaccurate. -/
theorem footing_check_spec (reported : ℚ) (comps : List ℚ) (desc : String) (c : Calc) :
    ((validate_footing_calculation reported comps desc c).1.is_accurate = true ↔
      |comps.sum - reported| < 1) ∧
    (reported = comps.sum →
      (validate_footing_calculation reported comps desc c).1.is_accurate = true) ∧
    (reported = comps.sum + 3 / 2 →
      (validate_footing_calculation reported comps desc c).1.is_accurate = false) ∧
    (reported = comps.sum - 3 / 2 →
      (validate_footing_calculation reported comps desc c).1.is_accurate = false) := by
  refine ⟨?_, ?_, ?_, ?_⟩
  · simp [validate_footing_calculation, sum_values, subtract_values]
  · intro h; subst h
    simp [validate_footing_calculation, sum_values, subtract_values]
  · intro h; subst h
    simp [validate_footing_calculation, sum_values, subtract_values]
    rw [abs_of_pos] <;> norm_num
  · intro h; subst h
    simp [validate_footing_calculation, sum_values, subtract_values]
    rw [abs_of_pos] <;> norm_num

/-- Witness for C6 at the source's own test values. -/
theorem footing_check_witness :
    (validate_footing_calculation 1850000 [1000000, 500000, 250000, 100000]
      "Test footing validation" []).1.is_accurate = true ∧
    (validate_footing_calculation (1850000 + 3 / 2) [1000000, 500000, 250000, 100000]
      "Test footing validation" []).1.is_accurate = false :=
  ⟨(footing_check_spec 1850000 [1000000, 500000, 250000, 100000]
      "Test footing validation" []).2.1 (by norm_num),
   (footing_check_spec (1850000 + 3 / 2) [1000000, 500000, 250000, 100000]
      "Test footing validation" []).2.2.1 (by norm_num)⟩

/-- C7: percentage with a zero total never raises (the function is total and
returns a result record): the result is tagged `precision = "error"`, carries
the `Division by zero` error field and a zero percentage value, and no log
entry is appended. -/
theorem percentage_zero_total_spec (part : ℚ) (c : Calc) :
    (calculate_percentage part 0 c).1.precision = "error" ∧
    (calculate_percentage part 0 c).1.error = some "Division by zero" ∧
    (calculate_percentage part 0 c).1.percentage = 0 ∧
    (calculate_percentage part 0 c).2 = c := by
  simp [calculate_percentage]

/-- The Value Extractor's filtering loop, rewritten as filterMap-then-filter. -/
lemma extract_foldl_eq (l : List (List Char)) (acc : List ℚ) :
    l.foldl (fun acc s => match pyFloatOfToken s with
      | some v => if v > 1000 then acc ++ [v] else acc
      | none => acc) acc
    = acc ++ (l.filterMap pyFloatOfToken).filter (fun v => decide (v > 1000)) := by
  induction l generalizing acc with
  | nil => simp
  | cons s rest ih =>
    simp only [List.foldl_cons, List.filterMap_cons]
    cases h : pyFloatOfToken s with
    | none => simp [h, ih]
    | some v =>
      by_cases hv : v > 1000
      · simp [h, hv, ih, List.filter_cons]
      · simp [h, hv, ih, List.filter_cons]

/-- C10 counterexample: the claim reads parenthesized negatives as negative
values, so on `"Total: (2,000)"` its all-values bucket is empty (the value
-2000 does not exceed the floor); the code's extractor ignores the
parentheses and keeps +2000. -/
theorem paren_negative_not_recognized :
    claimParenAllValues "Total: (2,000)" = [] ∧
    (_extract_financial_values "Total: (2,000)").all_values = [2000] := by
  constructor <;> with_unfolding_all rfl

/-- C10 amended: the all-values bucket consists exactly of the maximal
digit/comma/period runs of the text that parse as numbers once commas are
removed — parentheses are not part of the tokens, so parenthesized
negatives are read as positive values — keeping, in order of appearance,
exactly the values strictly greater than the 1000 floor. -/
theorem extractor_all_values_amended (text : String) :
    (_extract_financial_values text).all_values =
      ((numRuns text).filterMap pyFloatOfToken).filter (fun v => decide (v > 1000)) ∧
    ∀ v ∈ (_extract_financial_values text).all_values, 1000 < v := by
  have h1 : (_extract_financial_values text).all_values =
      ((numRuns text).filterMap pyFloatOfToken).filter (fun v => decide (v > 1000)) := by
    simp only [_extract_financial_values]
    rw [extract_foldl_eq]
    simp
  refine ⟨h1, ?_⟩
  intro v hv
  rw [h1] at hv
  have := List.of_mem_filter hv
  simpa using this

set_option maxRecDepth 8000 in
/-- Witness for C10's amended claim at a concrete statement. -/
theorem extractor_all_values_amended_witness :
    (_extract_financial_values "1500 2500").all_values =
      ((numRuns "1500 2500").filterMap pyFloatOfToken).filter (fun v => decide (v > 1000)) ∧
    (1000 : ℚ) < 1500 :=
  ⟨(extractor_all_values_amended "1500 2500").1,
   (extractor_all_values_amended "1500 2500").2 1500 (by with_unfolding_all decide)⟩


/-- C9 amended: on the final attempt, exhaustion after a consensus-check
failure returns the FIRST replica's result tree with the accumulated attempt
record appended; exhaustion after the tool-usage guard returns an EMPTY tree
(not the first replica's) with the record; a successful consensus returns the
agreed tree.  (The original claim said the first replica's tree is returned
regardless of which check failed.) -/
theorem retry_exhaustion_fallback
    (rr : String → String → String → String → Except String AgentResult)
    (vc : List (String × AgentResult) → ConsensusResult)
    (agents : List String) (text ty company : String) (attempt : ℕ)
    (retries : List JSON) (results : List (String × AgentResult))
    (hrun : runAllReplicas rr agents text ty company = .ok results) :
    ((results.all (fun p => p.2.tool_calls_made ==
        (create_standardized_calculation_plan text ty).total_tool_count)) = false →
      ∃ info, _attempt_loop rr vc agents text ty company attempt retries 1 =
          .ok (.obj [], retries ++ [info]) ∧
        jlookup info "reason" = some (.str "tool_execution_inconsistent") ∧
        jlookup info "expected_tools" =
          some (.num ((create_standardized_calculation_plan text ty).total_tool_count : ℚ))) ∧
    ((results.all (fun p => p.2.tool_calls_made ==
        (create_standardized_calculation_plan text ty).total_tool_count)) = true →
      (vc results).is_consensus = false →
      ∀ hne : results ≠ [],
      ∃ info, _attempt_loop rr vc agents text ty company attempt retries 1 =
          .ok ((results.head hne).2.extracted_data, retries ++ [info]) ∧
        jlookup info "reason" = some (.str "tool_results_disagree_unexpectedly")) ∧
    ((results.all (fun p => p.2.tool_calls_made ==
        (create_standardized_calculation_plan text ty).total_tool_count)) = true →
      (vc results).is_consensus = true →
      _attempt_loop rr vc agents text ty company attempt retries 1 =
        .ok ((vc results).agreed_data, retries)) := by
  have hstep : _attempt_loop rr vc agents text ty company attempt retries 1 =
      (match runAllReplicas rr agents text ty company with
       | .error e => .error e
       | .ok agent_results =>
          if agent_results.all (fun p => p.2.tool_calls_made ==
              (create_standardized_calculation_plan text ty).total_tool_count) then
            if (vc agent_results).is_consensus then
              .ok ((vc agent_results).agreed_data, retries)
            else
              .ok (((agent_results.head?.map (fun p => p.2.extracted_data)).getD (.obj [])),
                   retries ++ [JSON.obj
                     [("attempt", .num ((attempt : ℚ) + 1)),
                      ("reason", .str "tool_results_disagree_unexpectedly"),
                      ("disagreements", .num ((vc agent_results).discrepancies.length : ℚ)),
                      ("failing_agents", .arr ((vc agent_results).failing_agents.map .str)),
                      ("note", .str "Identical tools produced different results - possible bug")]])
          else
            .ok (.obj [], retries ++ [JSON.obj
              [("attempt", .num ((attempt : ℚ) + 1)),
               ("reason", .str "tool_execution_inconsistent"),
               ("expected_tools", .num ((create_standardized_calculation_plan text ty).total_tool_count : ℚ)),
               ("agent_tool_counts", .obj (agent_results.map
                  (fun p => (p.1, JSON.num (p.2.tool_calls_made : ℚ)))))]])) := by
    rfl
  rw [hstep, hrun]
  dsimp only
  refine ⟨?_, ?_, ?_⟩
  · intro hall
    rw [hall]
    simp only [Bool.false_eq_true, if_false]
    exact ⟨_, rfl, rfl, rfl⟩
  · intro hall hcons hne
    rw [hall, hcons]
    simp only [eq_self_iff_true, if_true, Bool.false_eq_true, if_false]
    rw [List.head?_eq_head hne]
    exact ⟨_, rfl, rfl⟩
  · intro hall hcons
    rw [hall, hcons]
    simp only [eq_self_iff_true, if_true]



/-- Witness for C9's amended claim: two concrete disagreeing replicas
exhaust the single attempt and the controller returns the first replica's
tree plus a disagreement record. -/
theorem retry_exhaustion_fallback_witness :
    ∃ info, _attempt_loop stubDisagreeRun gemini_validate_consensus ["a1", "a2"]
        "x" "neraca" "PT" 0 [] 1 =
      .ok ((mkStubAgentResult "a1" (mkFigureData 1000000) 10 0).extracted_data,
           [] ++ [info]) ∧
      jlookup info "reason" = some (.str "tool_results_disagree_unexpectedly") := by
  have h := (retry_exhaustion_fallback stubDisagreeRun gemini_validate_consensus
      ["a1", "a2"] "x" "neraca" "PT" 0 [] rsDisagree
      (by with_unfolding_all rfl)).2.1
    (by with_unfolding_all decide) (by with_unfolding_all decide)
    (by simp [rsDisagree])
  simpa [rsDisagree] using h

/-- C9 counterexample: a replica implementation failing the tool-count guard
on its only attempt makes the controller return an empty tree, which differs
from the first replica's (non-empty) result tree — refuting the claim that
the first replica's tree is returned regardless of the failing check. -/
theorem retry_usage_exhaustion_returns_empty :
    Except.map (fun x => (x.1, x.2.length))
      (_process_with_consensus stubUsageRun gemini_validate_consensus ["agent_1"]
        "x" "neraca" "PT" 0) = .ok (.obj [], 1) ∧
    Except.map (fun rs => rs.head?.map (fun p => p.2.extracted_data))
      (runAllReplicas stubUsageRun ["agent_1"] "x" "neraca" "PT") =
      .ok (some (.obj [("x", .num 1)])) ∧
    (JSON.obj [] ≠ JSON.obj [("x", .num 1)]) := by
  refine ⟨by with_unfolding_all rfl, by with_unfolding_all rfl, by simp⟩



/-- Membership in the deduplicating fold that builds `failing_agents`. -/
lemma mem_failingFold (l : List String) (f : List String) (a : String) :
    a ∈ l.foldl (fun f b => if b ∈ f then f else f ++ [b]) f ↔ a ∈ f ∨ a ∈ l := by
  induction l generalizing f with
  | nil => simp
  | cons b rest ih =>
    simp only [List.foldl_cons]
    by_cases hb : b ∈ f
    · rw [if_pos hb, ih]
      constructor
      · rintro (h | h)
        · exact Or.inl h
        · exact Or.inr (List.mem_cons_of_mem _ h)
      · rintro (h | h)
        · exact Or.inl h
        · rcases List.mem_cons.mp h with h1 | h2
          · exact Or.inl (h1 ▸ hb)
          · exact Or.inr h2
    · rw [if_neg hb, ih]
      simp only [List.mem_append, List.mem_singleton, List.mem_cons]
      tauto

lemma lookup_mem_keys {β : Type} (l : List (String × β)) (k : String) (v : β)
    (h : l.lookup k = some v) : k ∈ l.map Prod.fst := by
  induction l with
  | nil => simp [List.lookup] at h
  | cons p rest ih =>
    cases hpk : (k == p.1) with
    | true =>
      simp only [List.map_cons, List.mem_cons]
      exact Or.inl (by simpa using hpk)
    | false =>
      simp only [List.lookup, hpk] at h
      exact List.mem_cons_of_mem _ (ih h)

lemma consensusValues_eq_nil_of_not_mem (kf : List (String × List (String × ℚ)))
    (k : String) (h : k ∉ (kf.flatMap (fun p => p.2.map Prod.fst)).dedup) :
    consensusValues kf k = [] := by
  rw [consensusValues, List.filterMap_eq_nil_iff]
  intro p hp
  cases hl : p.2.lookup k with
  | none => rfl
  | some v =>
    exfalso
    exact h (List.mem_dedup.mpr (List.mem_flatMap.mpr ⟨p, hp, lookup_mem_keys _ _ _ hl⟩))

lemma consensusStep_snd (rel fl : ℚ) (wt : Bool) (kf) (acc : List JSON × List String)
    (k : String) :
    (consensusStep rel fl wt kf acc k).2 =
      (disagreeOn rel fl (consensusValues kf k)).foldl
        (fun f a => if a ∈ f then f else f ++ [a]) acc.2 := by
  simp only [consensusStep]
  split <;> rfl

lemma consensusStep_fst (rel fl : ℚ) (wt : Bool) (kf) (acc : List JSON × List String)
    (k : String) :
    ∃ tail, (consensusStep rel fl wt kf acc k).1 = acc.1 ++ tail ∧
      (tail = [] ↔ disagreeOn rel fl (consensusValues kf k) = []) := by
  simp only [consensusStep]
  by_cases h : (disagreeOn rel fl (consensusValues kf k)).isEmpty
  · refine ⟨[], ?_, ?_⟩
    · simp [h]
    · simp [List.isEmpty_iff.mp h]
  · rw [if_neg h]
    refine ⟨_, rfl, ?_⟩
    constructor
    · intro hc
      simp at hc
    · intro hd
      exact absurd (List.isEmpty_iff.mpr hd) h


lemma consensus_fold_snd_mem (rel fl : ℚ) (wt : Bool) (kf)
    (keys : List String) (acc : List JSON × List String) (a : String) :
    a ∈ (keys.foldl (consensusStep rel fl wt kf) acc).2 ↔
      a ∈ acc.2 ∨ ∃ k ∈ keys, a ∈ disagreeOn rel fl (consensusValues kf k) := by
  induction keys generalizing acc with
  | nil => simp
  | cons k rest ih =>
    simp only [List.foldl_cons]
    rw [ih, consensusStep_snd, mem_failingFold]
    simp only [List.mem_cons]
    constructor
    · rintro ((h | h) | ⟨k2, hk2, h⟩)
      · exact Or.inl h
      · exact Or.inr ⟨k, Or.inl rfl, h⟩
      · exact Or.inr ⟨k2, Or.inr hk2, h⟩
    · rintro (h | ⟨k2, hk2 | hk2, h⟩)
      · exact Or.inl (Or.inl h)
      · exact Or.inl (Or.inr (hk2 ▸ h))
      · exact Or.inr ⟨k2, hk2, h⟩

lemma consensus_fold_fst_nil (rel fl : ℚ) (wt : Bool) (kf)
    (keys : List String) (acc : List JSON × List String) :
    (keys.foldl (consensusStep rel fl wt kf) acc).1 = [] ↔
      acc.1 = [] ∧ ∀ k ∈ keys, disagreeOn rel fl (consensusValues kf k) = [] := by
  induction keys generalizing acc with
  | nil => simp
  | cons k rest ih =>
    simp only [List.foldl_cons]
    rw [ih]
    obtain ⟨tail, heq, hiff⟩ := consensusStep_fst rel fl wt kf acc k
    rw [heq]
    simp only [List.append_eq_nil, List.mem_cons]
    constructor
    · rintro ⟨⟨h1, h2⟩, h3⟩
      refine ⟨h1, ?_⟩
      intro k2 hk2
      rcases hk2 with hk2 | hk2
      · exact hk2 ▸ hiff.mp h2
      · exact h3 k2 hk2
    · rintro ⟨h1, h2⟩
      exact ⟨⟨h1, hiff.mpr (h2 k (Or.inl rfl))⟩, fun k2 hk2 => h2 k2 (Or.inr hk2)⟩

lemma mem_disagreeOn_iff (rel fl : ℚ) (vals : List (String × ℚ)) (a : String) :
    a ∈ disagreeOn rel fl vals ↔
      ∃ id0 base rest v, vals = (id0, base) :: rest ∧ (a, v) ∈ rest ∧
        |v - base| > max |base * rel| fl := by
  cases vals with
  | nil =>
    simp only [disagreeOn, List.not_mem_nil, false_iff]
    rintro ⟨id0, base, rest, v, hcons, _, _⟩
    exact List.noConfusion hcons
  | cons p rest =>
    obtain ⟨id0, base⟩ := p
    simp only [disagreeOn, List.mem_map, List.mem_filter]
    constructor
    · rintro ⟨⟨a2, v⟩, ⟨hmem, hpred⟩, hfst⟩
      subst hfst
      exact ⟨id0, base, rest, v, rfl, hmem, by simpa [toleranceFor] using hpred⟩
    · rintro ⟨id0', base', rest', v, hcons, hmem, hgt⟩
      injection hcons with h1 h2
      simp only [Prod.mk.injEq] at h1
      obtain ⟨h1a, h1b⟩ := h1
      subst h1b
      subst h2
      exact ⟨(a, v), ⟨hmem, by simpa [toleranceFor] using hgt⟩, rfl⟩

lemma foldMax_spec (xs : List (String × AgentResult)) :
    ∀ b : String × AgentResult,
      (∀ q ∈ b :: xs, q.2.confidence ≤
        (xs.foldl (fun b y => if y.2.confidence > b.2.confidence then y else b) b).2.confidence) ∧
      ∃ pre suf, b :: xs =
          pre ++ (xs.foldl (fun b y => if y.2.confidence > b.2.confidence then y else b) b) :: suf ∧
        ∀ q ∈ pre, q.2.confidence <
          (xs.foldl (fun b y => if y.2.confidence > b.2.confidence then y else b) b).2.confidence := by
  induction xs with
  | nil =>
    intro b
    refine ⟨by simp, [], [], rfl, by simp⟩
  | cons y ys ih =>
    intro b
    simp only [List.foldl_cons]
    by_cases hyb : y.2.confidence > b.2.confidence
    · rw [if_pos hyb]
      obtain ⟨ihmax, pre, suf, hdecomp, hpre⟩ := ih y
      set r := ys.foldl (fun b y => if y.2.confidence > b.2.confidence then y else b) y with hr
      refine ⟨?_, ?_⟩
      · intro q hq
        rcases List.mem_cons.mp hq with h | h
        · subst h
          exact le_of_lt (lt_of_lt_of_le hyb (ihmax y (List.mem_cons_self _ _)))
        · exact ihmax q h
      · cases pre with
        | nil =>
          have h1 : y = r ∧ ys = suf := by
            have h2 := hdecomp
            simp only [List.nil_append, List.cons.injEq] at h2
            exact h2
          refine ⟨[b], suf, ?_, ?_⟩
          · simp only [List.cons_append, List.nil_append]
            rw [h1.1, h1.2]
          · intro q hq
            rcases List.mem_singleton.mp hq with h
            subst h
            exact lt_of_lt_of_le hyb (ihmax y (List.mem_cons_self _ _))
        | cons p pre2 =>
          have h1 : y = p ∧ ys = pre2 ++ r :: suf := by
            have h2 := hdecomp
            simp only [List.cons_append, List.cons.injEq] at h2
            exact h2
          refine ⟨b :: p :: pre2, suf, ?_, ?_⟩
          · simp only [List.cons_append]
            rw [h1.1, h1.2]
          · intro q hq
            rcases List.mem_cons.mp hq with h | h
            · subst h
              calc q.2.confidence < y.2.confidence := hyb
                _ = p.2.confidence := by rw [h1.1]
                _ < r.2.confidence := hpre p (List.mem_cons_self _ _)
            · exact hpre q h
    · rw [if_neg hyb]
      obtain ⟨ihmax, pre, suf, hdecomp, hpre⟩ := ih b
      set r := ys.foldl (fun b y => if y.2.confidence > b.2.confidence then y else b) b with hr
      refine ⟨?_, ?_⟩
      · intro q hq
        rcases List.mem_cons.mp hq with h | h
        · exact h ▸ ihmax b (List.mem_cons_self _ _)
        · rcases List.mem_cons.mp h with h2 | h2
          · exact h2 ▸ le_trans (le_of_not_lt hyb) (ihmax b (List.mem_cons_self _ _))
          · exact ihmax q (List.mem_cons_of_mem _ h2)
      · cases pre with
        | nil =>
          have h1 : b = r ∧ ys = suf := by
            have h2 := hdecomp
            simp only [List.nil_append, List.cons.injEq] at h2
            exact h2
          refine ⟨[], y :: ys, ?_, by simp⟩
          simp only [List.nil_append]
          rw [← h1.1]
        | cons p pre2 =>
          have h1 : b = p ∧ ys = pre2 ++ r :: suf := by
            have h2 := hdecomp
            simp only [List.cons_append, List.cons.injEq] at h2
            exact h2
          refine ⟨b :: y :: pre2, suf, ?_, ?_⟩
          · simp only [List.cons_append]
            rw [h1.2]
          · intro q hq
            have hplt : p.2.confidence < r.2.confidence := hpre p (List.mem_cons_self _ _)
            have hblt : b.2.confidence < r.2.confidence := h1.1 ▸ hplt
            rcases List.mem_cons.mp hq with h | h
            · subst h
              exact hblt
            · rcases List.mem_cons.mp h with h2 | h2
              · subst h2
                exact lt_of_le_of_lt (le_of_not_lt hyb) hblt
              · have : q ∈ p :: pre2 := List.mem_cons_of_mem _ h2
                exact hpre q this


lemma disagreeOn_nil (rel fl : ℚ) : disagreeOn rel fl [] = [] := rfl

lemma mem_allKeys_of_values_ne_nil (kf : List (String × List (String × ℚ)))
    (k : String) (h : consensusValues kf k ≠ []) :
    k ∈ (kf.flatMap (fun p => p.2.map Prod.fst)).dedup := by
  by_contra hk
  exact h (consensusValues_eq_nil_of_not_mem kf k hk)

/-- C3: for either profile (strict 0.0001/1.0 — Gemini — or loose
0.001/5.0 — Ollama) the consensus validator takes the first holder's value
as baseline with tolerance `max(|baseline * relFactor|, floor)`;
a replica disagrees on a figure exactly when it appears after the first
holder with a value differing from the baseline by more than the tolerance;
the outcome is agreed iff no figure has any disagreeing replica (zero
discrepancies and zero failing replicas); and the agreed tree is the
first-in-order replica of maximal confidence. -/
theorem consensus_validator_spec :
    (∀ rs, gemini_validate_consensus rs = validateConsensusCore (1 / 10000) 1 true rs) ∧
    (∀ rs, ollama_validate_consensus rs = validateConsensusCore (1 / 1000) 5 false rs) ∧
    ∀ (relFactor floorV : ℚ) (wt : Bool) (rs : List (String × AgentResult)),
      ((validateConsensusCore relFactor floorV wt rs).is_consensus = true ↔
        ∀ k, disagreeOn relFactor floorV (consensusValues (keyFiguresOf rs) k) = []) ∧
      (∀ a, a ∈ (validateConsensusCore relFactor floorV wt rs).failing_agents ↔
        ∃ k, a ∈ disagreeOn relFactor floorV (consensusValues (keyFiguresOf rs) k)) ∧
      (∀ (vals : List (String × ℚ)) (a : String), a ∈ disagreeOn relFactor floorV vals ↔
        ∃ id0 base rest v, vals = (id0, base) :: rest ∧ (a, v) ∈ rest ∧
          |v - base| > max |base * relFactor| floorV) ∧
      ((validateConsensusCore relFactor floorV wt rs).is_consensus = true →
        ∀ x xs, rs = x :: xs →
        ∃ p pre suf, maxByConfidence rs = some p ∧
          (validateConsensusCore relFactor floorV wt rs).agreed_data = p.2.extracted_data ∧
          (∀ q ∈ rs, q.2.confidence ≤ p.2.confidence) ∧
          rs = pre ++ p :: suf ∧ ∀ q ∈ pre, q.2.confidence < p.2.confidence) := by
  refine ⟨fun rs => rfl, fun rs => rfl, ?_⟩
  intro relFactor floorV wt rs
  have hfst := consensus_fold_fst_nil relFactor floorV wt (keyFiguresOf rs)
    ((keyFiguresOf rs).flatMap (fun p => p.2.map Prod.fst)).dedup ([], [])
  have hsnd := fun a => consensus_fold_snd_mem relFactor floorV wt (keyFiguresOf rs)
    ((keyFiguresOf rs).flatMap (fun p => p.2.map Prod.fst)).dedup ([], []) a
  refine ⟨?_, ?_, ?_, ?_⟩
  · -- (a) is_consensus iff no disagreement on any key
    simp only [validateConsensusCore]
    rw [Bool.and_eq_true, List.isEmpty_iff, List.isEmpty_iff]
    constructor
    · rintro ⟨h1, _⟩ k
      by_cases hk : k ∈ ((keyFiguresOf rs).flatMap (fun p => p.2.map Prod.fst)).dedup
      · exact (hfst.mp h1).2 k hk
      · rw [consensusValues_eq_nil_of_not_mem _ _ hk, disagreeOn_nil]
    · intro h
      refine ⟨hfst.mpr ⟨rfl, fun k _ => h k⟩, ?_⟩
      rw [List.eq_nil_iff_forall_not_mem]
      intro a ha
      rcases (hsnd a).mp ha with h2 | ⟨k, _, h2⟩
      · simp at h2
      · rw [h k] at h2
        simp at h2
  · -- (b) failing-agent membership
    intro a
    simp only [validateConsensusCore]
    rw [hsnd a]
    constructor
    · rintro (h | ⟨k, _, h⟩)
      · simp at h
      · exact ⟨k, h⟩
    · rintro ⟨k, h⟩
      refine Or.inr ⟨k, ?_, h⟩
      apply mem_allKeys_of_values_ne_nil
      intro hnil
      rw [hnil, disagreeOn_nil] at h
      simp at h
  · -- (c) disagreement characterization
    intro vals a
    exact mem_disagreeOn_iff relFactor floorV vals a
  · -- (d) agreed tree selection
    intro hcons x xs hrs
    subst hrs
    have hmax : maxByConfidence (x :: xs) =
        some (xs.foldl (fun b y => if y.2.confidence > b.2.confidence then y else b) x) := rfl
    obtain ⟨hle, pre, suf, hdecomp, hpre⟩ := foldMax_spec xs x
    refine ⟨_, pre, suf, hmax, ?_, hle, hdecomp, hpre⟩
    simp only [validateConsensusCore] at hcons ⊢
    rw [hcons]
    simp only [if_true, eq_self_iff_true]
    rw [hmax]

/-- Witness for C3: two concrete agreeing replicas; the second has the
higher confidence and its tree is chosen. -/
theorem consensus_validator_spec_witness :
    (validateConsensusCore (1 / 10000) 1 true rsAgree).is_consensus = true ∧
    ∃ p pre suf, maxByConfidence rsAgree = some p ∧
      (validateConsensusCore (1 / 10000) 1 true rsAgree).agreed_data = p.2.extracted_data ∧
      (∀ q ∈ rsAgree, q.2.confidence ≤ p.2.confidence) ∧
      rsAgree = pre ++ p :: suf ∧ ∀ q ∈ pre, q.2.confidence < p.2.confidence := by
  have hc : (validateConsensusCore (1 / 10000) 1 true rsAgree).is_consensus = true := by
    with_unfolding_all decide
  exact ⟨hc, (consensus_validator_spec.2.2 (1 / 10000) 1 true rsAgree).2.2.2 hc _ _ rfl⟩


lemma lookup_mem_pair {β : Type} (l : List (String × β)) (k : String) (v : β)
    (h : l.lookup k = some v) : (k, v) ∈ l := by
  induction l with
  | nil => simp [List.lookup] at h
  | cons p rest ih =>
    obtain ⟨pk, pv⟩ := p
    cases hpk : (k == pk) with
    | true =>
      have hk : k = pk := by simpa using hpk
      simp only [List.lookup, hpk] at h
      injection h with h2
      subst hk
      subst h2
      exact List.mem_cons_self _ _
    | false =>
      simp only [List.lookup, hpk] at h
      exact List.mem_cons_of_mem _ (ih h)

lemma lookup_assocSet_self (kvs : List (String × JSON)) (k : String) (v : JSON) :
    (assocSet kvs k v).lookup k = some v := by
  induction kvs with
  | nil => simp [assocSet, List.lookup]
  | cons p rest ih =>
    obtain ⟨pk, pv⟩ := p
    by_cases hpk : pk = k
    · subst hpk
      simp [assocSet, List.lookup]
    · rw [assocSet, if_neg hpk, List.lookup]
      have hb : (k == pk) = false := by
        simp [Ne.symm hpk]
      rw [hb]
      exact ih

lemma lookup_assocSet_ne (kvs : List (String × JSON)) (k : String) (v : JSON)
    (k2 : String) (hne : k2 ≠ k) :
    (assocSet kvs k v).lookup k2 = kvs.lookup k2 := by
  induction kvs with
  | nil =>
    have hb : (k2 == k) = false := by simp [hne]
    simp [assocSet, List.lookup, hb]
  | cons p rest ih =>
    obtain ⟨pk, pv⟩ := p
    by_cases hpk : pk = k
    · subst hpk
      have hb : (k2 == pk) = false := by simp [hne]
      simp [assocSet, List.lookup, hb]
    · rw [assocSet, if_neg hpk]
      cases hb2 : (k2 == pk) with
      | true => simp [List.lookup, hb2]
      | false => simp [List.lookup, hb2, ih]

lemma mem_assocSet (kvs : List (String × JSON)) (k : String) (v : JSON)
    (p : String × JSON) (h : p ∈ assocSet kvs k v) : p = (k, v) ∨ p ∈ kvs := by
  induction kvs with
  | nil =>
    simp [assocSet] at h
    exact Or.inl h
  | cons q rest ih =>
    obtain ⟨qk, qv⟩ := q
    by_cases hqk : qk = k
    · subst hqk
      simp only [assocSet, if_pos rfl] at h
      rcases List.mem_cons.mp h with h2 | h2
      · exact Or.inl h2
      · exact Or.inr (List.mem_cons_of_mem _ h2)
    · rw [assocSet, if_neg hqk] at h
      rcases List.mem_cons.mp h with h2 | h2
      · exact Or.inr (h2 ▸ List.mem_cons_self _ _)
      · rcases ih h2 with h3 | h3
        · exact Or.inl h3
        · exact Or.inr (List.mem_cons_of_mem _ h3)

lemma jLookupPath_pair (j : JSON) (a b : String) :
    jLookupPath j [a, b] = (jlookup j a).bind (fun w => jlookup w b) := by
  cases h : jlookup j a with
  | none => simp [jLookupPath, h]
  | some w =>
    simp only [jLookupPath, h, Option.bind_some]
    cases h2 : jlookup w b with
    | none => simp [jLookupPath, h2]
    | some u => simp [jLookupPath, h2]

lemma jHasPath_pair (kvs : List (String × JSON)) (p1 p2 : String) :
    jHasPath (.obj kvs) [p1, p2] = true ↔
      ∃ w, kvs.lookup p1 = some w ∧ (jlookup w p2).isSome = true := by
  rw [jHasPath, jLookupPath_pair]
  cases h : kvs.lookup p1 with
  | none => simp [jlookup, h]
  | some w => simp [jlookup, h]

lemma storeOk2 (kvs : List (String × JSON)) (h k : String) (v : JSON)
    (hinv : ∀ p ∈ kvs, isObjB p.2 = true) :
    ∃ kvs2, _store_result_in_structure [h, k] (.obj kvs) v = .ok (.obj kvs2) ∧
      (∀ p ∈ kvs2, isObjB p.2 = true) ∧
      (∀ p1 p2, jHasPath (.obj kvs) [p1, p2] = true → jHasPath (.obj kvs2) [p1, p2] = true) ∧
      jHasPath (.obj kvs2) [h, k] = true := by
  cases hl : kvs.lookup h with
  | none =>
    refine ⟨assocSet kvs h (.obj (assocSet [] k v)), ?_, ?_, ?_, ?_⟩
    · simp [_store_result_in_structure, hl, Except.map]
    · intro p hp
      rcases mem_assocSet _ _ _ _ hp with h2 | h2
      · subst h2
        rfl
      · exact hinv p h2
    · intro p1 p2 hpath
      rcases (jHasPath_pair _ _ _).mp hpath with ⟨w, hw, hw2⟩
      by_cases hp1 : p1 = h
      · subst hp1
        rw [hl] at hw
        exact absurd hw (by simp)
      · exact (jHasPath_pair _ _ _).mpr ⟨w, by rw [lookup_assocSet_ne _ _ _ _ hp1]; exact hw, hw2⟩
    · refine (jHasPath_pair _ _ _).mpr ⟨_, lookup_assocSet_self _ _ _, ?_⟩
      simp [jlookup, assocSet, List.lookup]
  | some sub =>
    have hsubobj : isObjB sub = true := hinv (h, sub) (lookup_mem_pair _ _ _ hl)
    obtain ⟨kvs1, hsub⟩ : ∃ kvs1, sub = .obj kvs1 := by
      cases sub <;> simp [isObjB] at hsubobj
      exact ⟨_, rfl⟩
    subst hsub
    refine ⟨assocSet kvs h (.obj (assocSet kvs1 k v)), ?_, ?_, ?_, ?_⟩
    · simp [_store_result_in_structure, hl, Except.map]
    · intro p hp
      rcases mem_assocSet _ _ _ _ hp with h2 | h2
      · subst h2
        rfl
      · exact hinv p h2
    · intro p1 p2 hpath
      rcases (jHasPath_pair _ _ _).mp hpath with ⟨w, hw, hw2⟩
      by_cases hp1 : p1 = h
      · subst hp1
        rw [hl] at hw
        injection hw with hw
        subst hw
        refine (jHasPath_pair _ _ _).mpr ⟨_, lookup_assocSet_self _ _ _, ?_⟩
        by_cases hp2 : p2 = k
        · subst hp2
          simp [jlookup, lookup_assocSet_self]
        · simp only [jlookup] at hw2 ⊢
          rw [lookup_assocSet_ne _ _ _ _ hp2]
          exact hw2
      · exact (jHasPath_pair _ _ _).mpr ⟨w, by rw [lookup_assocSet_ne _ _ _ _ hp1]; exact hw, hw2⟩
    · refine (jHasPath_pair _ _ _).mpr ⟨_, lookup_assocSet_self _ _ _, ?_⟩
      simp [jlookup, lookup_assocSet_self]

lemma exec_tool_list_ok (ops : List ToolExecution) :
    ∀ (kvs : List (String × JSON)) (c : Calc),
      (∀ p ∈ kvs, isObjB p.2 = true) →
      (∀ op ∈ ops, ∃ h k, splitPath op.expected_result_key = [h, k]) →
      ∃ kvs2 n c2, _execute_tool_list ops (.obj kvs) c = .ok (.obj kvs2, n, c2) ∧
        (∀ p ∈ kvs2, isObjB p.2 = true) ∧
        (∀ p1 p2, jHasPath (.obj kvs) [p1, p2] = true → jHasPath (.obj kvs2) [p1, p2] = true) ∧
        (∀ op ∈ ops, jHasPath (.obj kvs2) (splitPath op.expected_result_key) = true) := by
  induction ops with
  | nil =>
    intro kvs c hinv _
    exact ⟨kvs, 0, c, rfl, hinv, fun _ _ h => h, by simp⟩
  | cons op rest ih =>
    intro kvs c hinv hpaths
    obtain ⟨hh, kk, hsplit⟩ := hpaths op (List.mem_cons_self _ _)
    have hrest : ∀ o ∈ rest, ∃ h k, splitPath o.expected_result_key = [h, k] :=
      fun o ho => hpaths o (List.mem_cons_of_mem _ ho)
    cases hinvk : _invoke_tool op c with
    | ok vc =>
      obtain ⟨v, c1⟩ := vc
      obtain ⟨kvs1, hstore, hinv1, hpres1, hnew1⟩ := storeOk2 kvs hh kk v hinv
      obtain ⟨kvs2, n2, c2, hexec, hinv2, hpres2, hops2⟩ := ih kvs1 c1 hinv1 hrest
      refine ⟨kvs2, 1 + n2, c2, ?_, hinv2, ?_, ?_⟩
      · simp only [_execute_tool_list, hinvk, hsplit, hstore, hexec]
      · intro p1 p2 hp
        exact hpres2 p1 p2 (hpres1 p1 p2 hp)
      · intro o ho
        rcases List.mem_cons.mp ho with h2 | h2
        · subst h2
          rw [hsplit]
          exact hpres2 hh kk hnew1
        · exact hops2 o h2
    | error e =>
      obtain ⟨kvs1, hstore, hinv1, hpres1, hnew1⟩ := storeOk2 kvs hh kk (errorLeaf e) hinv
      obtain ⟨kvs2, n2, c2, hexec, hinv2, hpres2, hops2⟩ := ih kvs1 c hinv1 hrest
      refine ⟨kvs2, n2, c2, ?_, hinv2, ?_, ?_⟩
      · simp only [_execute_tool_list, hinvk, hsplit, hstore, hexec]
      · intro p1 p2 hp
        exact hpres2 p1 p2 (hpres1 p1 p2 hp)
      · intro o ho
        rcases List.mem_cons.mp ho with h2 | h2
        · subst h2
          rw [hsplit]
          exact hpres2 hh kk hnew1
        · exact hops2 o h2

lemma mem_of_mem_ite_lists {α : Type} {c : Prop} [Decidable c] {l1 l2 : List α}
    {a : α} (h : a ∈ (if c then l1 else l2)) : a ∈ l1 ∨ a ∈ l2 := by
  split at h
  · exact Or.inl h
  · exact Or.inr h

lemma balance_tools_paths (numbers : Buckets) :
    ∀ op ∈ _create_balance_sheet_tools numbers,
      (splitPath op.expected_result_key).length = 2 := by
  intro op hop
  simp only [_create_balance_sheet_tools, List.mem_append] at hop
  rcases hop with (((h | h) | h) | h) | h <;>
    (rcases mem_of_mem_ite_lists h with h2 | h2 <;>
      simp only [List.mem_singleton, List.not_mem_nil] at h2) <;>
    (subst h2; rfl)

lemma income_tools_paths (numbers : Buckets) :
    ∀ op ∈ _create_income_statement_tools numbers,
      (splitPath op.expected_result_key).length = 2 := by
  intro op hop
  simp only [_create_income_statement_tools, List.mem_append] at hop
  rcases hop with (h | h) | h <;>
    (rcases mem_of_mem_ite_lists h with h2 | h2 <;>
      simp only [List.mem_singleton, List.not_mem_nil] at h2) <;>
    (subst h2; rfl)

lemma cash_tools_paths (numbers : Buckets) :
    ∀ op ∈ _create_cash_flow_tools numbers,
      (splitPath op.expected_result_key).length = 2 := by
  intro op hop
  simp only [_create_cash_flow_tools, List.mem_append] at hop
  rcases hop with h | h <;>
    (rcases mem_of_mem_ite_lists h with h2 | h2 <;>
      simp only [List.mem_singleton, List.not_mem_nil] at h2) <;>
    (subst h2; rfl)

/-- C8: the Plan Executor never aborts: (1) every plan the Plan Builder
produces targets two-segment key paths; (2) for any such plan the executor
returns without raising and the result tree holds a leaf at EVERY
operation's target path, failed operations included; (3) concretely, in the
three-operation `demoOps` whose middle operation is the orchestrator's own
failing footing invocation, the validation error is recorded as an error
leaf at that operation's path, the third operation still executes, and the
run reports two successes. -/
theorem executor_never_aborts :
    (∀ text ty, ∀ op ∈ (create_standardized_calculation_plan text ty).required_tools,
      (splitPath op.expected_result_key).length = 2) ∧
    (∀ plan : FinancialCalculationPlan,
      (∀ op ∈ plan.required_tools, (splitPath op.expected_result_key).length = 2) →
      ∃ res n c2, execute_mandatory_calculations plan = .ok (res, n, c2) ∧
        ∀ op ∈ plan.required_tools, jHasPath res (splitPath op.expected_result_key) = true) ∧
    (Except.map (fun x => (jLookupPath x.1 ["footing_validation", "status"],
        jHasPath x.1 ["laba_bersih", "nilai_perhitungan"], x.2.1))
      (_execute_tool_list demoOps (.obj []) []) =
      .ok (some (errorLeaf "ValidationError: invalid parameters for validate_footing_calculation"),
           true, 2)) := by
  refine ⟨?_, ?_, ?_⟩
  · intro text ty op hop
    simp only [create_standardized_calculation_plan] at hop
    split_ifs at hop with h1 h2 h3
    · exact balance_tools_paths _ op hop
    · exact income_tools_paths _ op hop
    · exact cash_tools_paths _ op hop
    · simp at hop
  · intro plan hpaths
    have hshape : ∀ op ∈ plan.required_tools,
        ∃ h k, splitPath op.expected_result_key = [h, k] := by
      intro op hop
      exact List.length_eq_two.mp (hpaths op hop)
    obtain ⟨kvs2, n, c2, hexec, _, _, hops⟩ :=
      exec_tool_list_ok plan.required_tools [] [] (by simp) hshape
    exact ⟨.obj kvs2, n, c2, hexec, hops⟩
  · with_unfolding_all rfl

/-- Witness for C8's executor statement at the concrete `demoOps` plan. -/
theorem executor_never_aborts_witness :
    ∃ res n c2, execute_mandatory_calculations ⟨demoOps, 3⟩ = .ok (res, n, c2) ∧
      ∀ op ∈ (⟨demoOps, 3⟩ : FinancialCalculationPlan).required_tools,
        jHasPath res (splitPath op.expected_result_key) = true :=
  executor_never_aborts.2.1 ⟨demoOps, 3⟩ (by with_unfolding_all decide)


/-- Every operation of a generated balance-sheet plan either fails `.invoke`
validation or appends exactly one log entry: the sums and the balance
verification log once; the footing call never validates (its dict binds
`"components"`, not `component_values`). -/
lemma balance_tools_log (numbers : Buckets) :
    ∀ op ∈ _create_balance_sheet_tools numbers, ∀ (c : Calc) (v : JSON) (c2 : Calc),
      _invoke_tool op c = .ok (v, c2) → c2.length = c.length + 1 := by
  intro op hop
  simp only [_create_balance_sheet_tools, List.mem_append] at hop
  rcases hop with (((h | h) | h) | h) | h <;>
    (rcases mem_of_mem_ite_lists h with h2 | h2 <;>
      simp only [List.mem_singleton, List.not_mem_nil] at h2) <;>
    subst h2 <;>
    intro c v c2 hinv <;>
    simp only [_invoke_tool, getNumParam, getNumListParam, getStrParam, List.lookup,
      sum_values, verify_balance_equation_logged, log_calculation,
      beq_self_eq_true, String.reduceBEq, String.reduceEq, reduceIte,
      reduceCtorEq, Except.ok.injEq, Prod.mk.injEq] at hinv <;>
    (obtain ⟨-, hc2⟩ := hinv; subst hc2; simp)

/-- Every operation of a generated income-statement plan appends exactly one
log entry when its `.invoke` succeeds. -/
lemma income_tools_log (numbers : Buckets) :
    ∀ op ∈ _create_income_statement_tools numbers, ∀ (c : Calc) (v : JSON) (c2 : Calc),
      _invoke_tool op c = .ok (v, c2) → c2.length = c.length + 1 := by
  intro op hop
  simp only [_create_income_statement_tools, List.mem_append] at hop
  rcases hop with (h | h) | h <;>
    (rcases mem_of_mem_ite_lists h with h2 | h2 <;>
      simp only [List.mem_singleton, List.not_mem_nil] at h2) <;>
    subst h2 <;>
    intro c v c2 hinv <;>
    simp only [_invoke_tool, getNumParam, getNumListParam, getStrParam, List.lookup,
      sum_values, subtract_values, log_calculation,
      beq_self_eq_true, String.reduceBEq, String.reduceEq, reduceIte,
      reduceCtorEq, Except.ok.injEq, Prod.mk.injEq] at hinv <;>
    (obtain ⟨-, hc2⟩ := hinv; subst hc2; simp)

/-- Every operation of a generated cash-flow plan appends exactly one log
entry when its `.invoke` succeeds. -/
lemma cash_tools_log (numbers : Buckets) :
    ∀ op ∈ _create_cash_flow_tools numbers, ∀ (c : Calc) (v : JSON) (c2 : Calc),
      _invoke_tool op c = .ok (v, c2) → c2.length = c.length + 1 := by
  intro op hop
  simp only [_create_cash_flow_tools, List.mem_append] at hop
  rcases hop with h | h <;>
    (rcases mem_of_mem_ite_lists h with h2 | h2 <;>
      simp only [List.mem_singleton, List.not_mem_nil] at h2) <;>
    subst h2 <;>
    intro c v c2 hinv <;>
    simp only [_invoke_tool, getNumParam, getNumListParam, getStrParam, List.lookup,
      sum_values, log_calculation,
      beq_self_eq_true, String.reduceBEq, String.reduceEq, reduceIte,
      reduceCtorEq, Except.ok.injEq, Prod.mk.injEq] at hinv <;>
    (obtain ⟨-, hc2⟩ := hinv; subst hc2; simp)

/-- Every operation of a Plan-Builder plan appends exactly one log entry
when its `.invoke` succeeds. -/
lemma plan_invoke_log (text ty : String) :
    ∀ op ∈ (create_standardized_calculation_plan text ty).required_tools,
      ∀ (c : Calc) (v : JSON) (c2 : Calc),
        _invoke_tool op c = .ok (v, c2) → c2.length = c.length + 1 := by
  intro op hop
  simp only [create_standardized_calculation_plan] at hop
  split_ifs at hop with h1 h2 h3
  · exact balance_tools_log _ op hop
  · exact income_tools_log _ op hop
  · exact cash_tools_log _ op hop
  · simp at hop


/-- Executor bookkeeping: the success count never exceeds the operation
count, and when every operation succeeds — given that each successful
`.invoke` appends exactly one log entry — the final log grew by exactly the
operation count. -/
lemma exec_count_le (ops : List ToolExecution) :
    ∀ (res : JSON) (c : Calc) (res2 : JSON) (n : ℕ) (c2 : Calc),
      (∀ op ∈ ops, ∀ (c3 : Calc) (v : JSON) (c4 : Calc),
        _invoke_tool op c3 = .ok (v, c4) → c4.length = c3.length + 1) →
      _execute_tool_list ops res c = .ok (res2, n, c2) →
      n ≤ ops.length ∧ (n = ops.length → c2.length = c.length + ops.length) := by
  induction ops with
  | nil =>
    intro res c res2 n c2 _ hexec
    simp only [_execute_tool_list, Except.ok.injEq, Prod.mk.injEq] at hexec
    obtain ⟨-, hn, hc⟩ := hexec
    subst hn
    subst hc
    simp
  | cons op rest ih =>
    intro res c res2 n c2 hP hexec
    have hPop := hP op (List.mem_cons_self _ _)
    have hPrest : ∀ o ∈ rest, ∀ (c3 : Calc) (v : JSON) (c4 : Calc),
        _invoke_tool o c3 = .ok (v, c4) → c4.length = c3.length + 1 :=
      fun o ho => hP o (List.mem_cons_of_mem _ ho)
    simp only [_execute_tool_list] at hexec
    cases hinv : _invoke_tool op c with
    | ok vc =>
      obtain ⟨v, c1⟩ := vc
      have hc1 : c1.length = c.length + 1 := hPop c v c1 hinv
      rw [hinv] at hexec
      dsimp only at hexec
      cases hstore : _store_result_in_structure (splitPath op.expected_result_key) res v with
      | ok res1 =>
        rw [hstore] at hexec
        dsimp only at hexec
        cases hrest : _execute_tool_list rest res1 c1 with
        | ok t =>
          obtain ⟨r2, n2, c4⟩ := t
          rw [hrest] at hexec
          simp only [Except.ok.injEq, Prod.mk.injEq] at hexec
          obtain ⟨-, hn, hc⟩ := hexec
          obtain ⟨hle, hfull⟩ := ih res1 c1 r2 n2 c4 hPrest hrest
          subst hn
          subst hc
          refine ⟨by simp only [List.length_cons]; omega, ?_⟩
          intro hfull2
          simp only [List.length_cons] at hfull2
          have hn2 : n2 = rest.length := by omega
          have := hfull hn2
          simp only [List.length_cons]
          omega
        | error e =>
          rw [hrest] at hexec
          simp at hexec
      | error e =>
        rw [hstore] at hexec
        dsimp only at hexec
        cases hstore2 : _store_result_in_structure (splitPath op.expected_result_key)
            res (errorLeaf e) with
        | ok res1 =>
          rw [hstore2] at hexec
          dsimp only at hexec
          cases hrest : _execute_tool_list rest res1 c1 with
          | ok t =>
            obtain ⟨r2, n2, c4⟩ := t
            rw [hrest] at hexec
            simp only [Except.ok.injEq, Prod.mk.injEq] at hexec
            obtain ⟨-, hn, hc⟩ := hexec
            obtain ⟨hle, -⟩ := ih res1 c1 r2 n2 c4 hPrest hrest
            subst hn
            subst hc
            constructor
            · simp only [List.length_cons]
              omega
            · intro hfull2
              simp only [List.length_cons] at hfull2
              omega
          | error e2 =>
            rw [hrest] at hexec
            simp at hexec
        | error e2 =>
          rw [hstore2] at hexec
          simp at hexec
    | error e =>
      rw [hinv] at hexec
      dsimp only at hexec
      cases hstore : _store_result_in_structure (splitPath op.expected_result_key)
          res (errorLeaf e) with
      | ok res1 =>
        rw [hstore] at hexec
        dsimp only at hexec
        cases hrest : _execute_tool_list rest res1 c with
        | ok t =>
          obtain ⟨r2, n2, c4⟩ := t
          rw [hrest] at hexec
          simp only [Except.ok.injEq, Prod.mk.injEq] at hexec
          obtain ⟨-, hn, hc⟩ := hexec
          obtain ⟨hle, -⟩ := ih res1 c r2 n2 c4 hPrest hrest
          subst hn
          subst hc
          constructor
          · simp only [List.length_cons]
            omega
          · intro hfull2
            simp only [List.length_cons] at hfull2
            omega
        | error e2 =>
          rw [hrest] at hexec
          simp at hexec
      | error e2 =>
        rw [hstore] at hexec
        simp at hexec


/-- C1: for every plan the Plan Builder produces, a run in which every
operation executes without error (success count = plan operation count)
leaves exactly one LogEntry per operation — so the log length equals the
plan's operation count — and the Usage Validator's count check passes
(absent forbidden phrases the validator returns success).  The
orchestrator's footing invocations always fail schema validation and log
nothing, so they cannot occur in an all-success run; every other generated
call (sum, subtract, balance verification) appends exactly one entry. -/
theorem successful_run_log_count_matches (text ty : String) :
    Except.map (fun x => x.2.1) (execute_mandatory_calculations
      (create_standardized_calculation_plan text ty)) =
      .ok (create_standardized_calculation_plan text ty).total_tool_count →
    Except.map (fun x => x.2.2.length) (execute_mandatory_calculations
      (create_standardized_calculation_plan text ty)) =
      .ok (create_standardized_calculation_plan text ty).total_tool_count ∧
    ∀ agent_result,
      forbidden_patterns.find? (fun p => jsonContainsPhrase agent_result p) = none →
      Except.map (fun x => validate_tool_usage agent_result
          (create_standardized_calculation_plan text ty).total_tool_count x.2.2)
        (execute_mandatory_calculations (create_standardized_calculation_plan text ty)) =
        .ok (true, "Tool usage validated") := by
  intro hall
  cases hexec : execute_mandatory_calculations (create_standardized_calculation_plan text ty) with
  | error e =>
    rw [hexec] at hall
    simp [Except.map] at hall
  | ok t =>
    obtain ⟨res, n, log⟩ := t
    rw [hexec] at hall
    simp only [Except.map, Except.ok.injEq] at hall
    have hcount : (create_standardized_calculation_plan text ty).total_tool_count =
        (create_standardized_calculation_plan text ty).required_tools.length := rfl
    have hrun : _execute_tool_list
        (create_standardized_calculation_plan text ty).required_tools (.obj []) [] =
        .ok (res, n, log) := hexec
    obtain ⟨-, hfull⟩ := exec_count_le _ _ _ _ _ _ (plan_invoke_log text ty) hrun
    have hlog : log.length =
        (create_standardized_calculation_plan text ty).required_tools.length := by
      have h2 := hfull (by rw [hall, hcount])
      simpa using h2
    have hloglen : log.length =
        (create_standardized_calculation_plan text ty).total_tool_count := by
      rw [hlog]
      exact hcount.symm
    constructor
    · simp only [Except.map, Except.ok.injEq]
      exact hloglen
    · intro agent_result hfind
      simp only [Except.map, Except.ok.injEq, validate_tool_usage]
      rw [if_neg (fun hne => hne hloglen)]
      rw [hfind]

/-- Witness for C1 at a two-value balance-sheet statement whose plan (two
sums, no footing operation) runs with every operation succeeding. -/
theorem successful_run_log_count_witness :
    (Except.map (fun x => x.2.2.length) (execute_mandatory_calculations
      (create_standardized_calculation_plan "2000 3000" "neraca")) =
      .ok (create_standardized_calculation_plan "2000 3000" "neraca").total_tool_count) ∧
    Except.map (fun x => validate_tool_usage JSON.null
        (create_standardized_calculation_plan "2000 3000" "neraca").total_tool_count x.2.2)
      (execute_mandatory_calculations (create_standardized_calculation_plan "2000 3000" "neraca")) =
      .ok (true, "Tool usage validated") := by
  have h := successful_run_log_count_matches "2000 3000" "neraca" (by with_unfolding_all rfl)
  exact ⟨h.1, h.2 JSON.null
    (by simp [forbidden_patterns, List.find?, jsonContainsPhrase, jStrAtoms])⟩

end AuditAgent
